import Mathlib

/-!
# Verification of the BREP-to-graph construction pipeline

A shallow embedding, in Lean 4, of the core of the `deploy` repository's
data-preprocessing pipeline: identity registry (`id_manager.py`), entity
classification and feature extraction (`base_face.py`, `cylindrical_face.py`,
`other_surface.py`, `base_edge.py`, `constants.py`), connectivity resolution
and the extraction loops (`feature_extract.py`), graph assembly (`graph.py`),
and feature alignment / homogenization (`data_preprocess/graph.py`,
`feature_config.py`).

Modelling conventions:
* Python numbers (ints, floats, bools used as features) are modelled as
  rationals `ℚ`; a Python bool stored in a feature field is modelled as the
  rational `1` or `0` (this is the value the downstream tensor conversion
  produces).
* A feature field holds a `PyVal`: either a scalar or a list of scalars.
  The failure paths of the extractor assign the scalar sentinel `-1` to
  fields, including vector-valued fields, so both shapes occur.
* Calls into the geometry kernel can raise exceptions; each distinct kernel
  query made by the extractor is modelled as an `Option`-valued field of a
  kernel-outcome record (`none` = the call raised).  The kernel is
  deterministic within one entity: the same query always gives the same
  outcome, which is why one record per entity suffices.
* Python's `list.extend(v)` raises `TypeError` when `v` is a scalar; this is
  modelled by returning `none`.
-/

/-- A Python runtime value stored in a feature field: a scalar number or a
list of numbers.  The scalar failure sentinel `-1` and vector values such as
`uv_bounds` both fit here. -/
inductive PyVal where
  | num (q : ℚ)
  | vec (l : List ℚ)
deriving DecidableEq, Repr

/-- `acc.extend(v)` on a Python list `acc`: iterating a scalar raises
`TypeError` (`none`); a list contributes its elements in order. -/
def pyExtend (acc : List PyVal) (v : PyVal) : Option (List PyVal) :=
  match v with
  | .num _ => none
  | .vec l => some (acc ++ l.map PyVal.num)

/-- `acc.append(v)` on a Python list: always succeeds and adds one element. -/
def pyAppend (acc : List PyVal) (v : PyVal) : List PyVal :=
  acc ++ [v]

/-- `MathConstants.PI` (`constants.py`): the value of Python's `math.pi`,
i.e. the IEEE-754 double closest to pi, as an exact rational. -/
def MathConstants.PI : ℚ := 884279719003555 / 281474976710656

/-- `MathConstants.TWO_PI` (`constants.py`). -/
def MathConstants.TWO_PI : ℚ := 2 * MathConstants.PI

/-- `MathConstants.FULL_CIRCLE_TOLERANCE` (`constants.py`). -/
def MathConstants.FULL_CIRCLE_TOLERANCE : ℚ := 1 / 100

/-- `EdgeRole.FREE` (`constants.py`): edge connected to no face. -/
def EdgeRole.FREE : ℚ := 0

/-- `EdgeRole.BOUNDARY` (`constants.py`): edge connected to one face. -/
def EdgeRole.BOUNDARY : ℚ := 1

/-- `EdgeRole.INTERIOR` (`constants.py`): edge connected to two faces. -/
def EdgeRole.INTERIOR : ℚ := 2

/-- `EdgeRole.NON_MANIFOLD` (`constants.py`): three or more faces. -/
def EdgeRole.NON_MANIFOLD : ℚ := 3

/-- `EdgeRole.from_num_faces` (`constants.py`): classify an edge by the
number of faces connected to it. -/
def EdgeRole.from_num_faces (num_faces : Nat) : ℚ :=
  if num_faces = 0 then EdgeRole.FREE
  else if num_faces = 1 then EdgeRole.BOUNDARY
  else if num_faces = 2 then EdgeRole.INTERIOR
  else EdgeRole.NON_MANIFOLD

/-- The kernel's continuity enumeration (`GeomAbs_Shape` values that
`BRep_Tool.Continuity` can return, as enumerated in `constants.py`). -/
inductive GeomAbsCont where
  | c0 | g1 | c1 | g2 | c2 | c3 | cn
deriving DecidableEq, Repr

/-- `Continuity.NONE` (`constants.py`): no continuity information. -/
def Continuity.NONE : ℚ := -1

/-- `Continuity.from_geomabs` (`constants.py`): the dictionary
`GEOMABS_TO_CODE` lookup with default `NONE`; the listed keys cover the
whole enumeration, so the mapping is total with no default ever taken. -/
def Continuity.from_geomabs : GeomAbsCont → ℚ
  | .c0 => 0
  | .g1 => 1
  | .c1 => 2
  | .g2 => 3
  | .c2 => 4
  | .c3 => 5
  | .cn => 6

/-- The kernel's `TopAbs_Orientation` enumeration. -/
inductive TopAbsOrient where
  | fwd | rev | inter | exter
deriving DecidableEq, Repr

/-- `Orientation.from_topabs` (`constants.py`): map the kernel enumeration
to the integer codes 0..3 (`TOPABS_TO_CODE` with default `FORWARD = 0`; the
four keys cover the enumeration). -/
def Orientation.from_topabs : TopAbsOrient → ℚ
  | .fwd => 0
  | .rev => 1
  | .inter => 2
  | .exter => 3

/-! ## Identity Registry (`data_preprocess/src/id_manager.py`)

A kernel shape wrapper is modelled by `ShapeRef`: `key` identifies the
underlying topological shape (the kernel's `IsSame` predicate compares
exactly these), while `wrapperId` distinguishes Python wrapper objects that
refer to the same shape.  `TopTools_IndexedMapOfShape` is modelled as the
list of inserted shape keys in insertion order: `FindIndex` is the 1-based
position of the key (0 when absent, as in the kernel), `Add` appends a new
key and returns its 1-based index (an existing key keeps its index). -/

/-- A Python wrapper object around a kernel shape.  Two wrappers with equal
`key` are `IsSame` in the kernel even when `wrapperId` differs. -/
structure ShapeRef where
  key : Nat
  wrapperId : Nat
deriving DecidableEq, Repr

/-- `TopTools_IndexedMapOfShape.FindIndex`: 1-based index of the shape in
insertion order, `0` when the shape was never added. -/
def mapFindIndex (m : List Nat) (s : ShapeRef) : Nat :=
  match m.indexOf? s.key with
  | some i => i + 1
  | none => 0

/-- `TopTools_IndexedMapOfShape.Add`: insert the shape if it is new and
return its 1-based index; an already-present shape keeps its index. -/
def mapAdd (m : List Nat) (s : ShapeRef) : List Nat × Nat :=
  match m.indexOf? s.key with
  | some i => (m, i + 1)
  | none => (m ++ [s.key], m.length + 1)

/-- `IDManager` state: the edge map and face map of the registry. -/
structure IDManager where
  edge_map : List Nat
  face_map : List Nat
deriving DecidableEq, Repr

/-- `IDManager.get_edge_id`: `FindIndex`, then `Add` when absent, then
convert the 1-based index to the returned 0-based id. -/
def IDManager.get_edge_id (mgr : IDManager) (edge : ShapeRef) : IDManager × Nat :=
  let index := mapFindIndex mgr.edge_map edge
  if index = 0 then
    let res := mapAdd mgr.edge_map edge
    ({ mgr with edge_map := res.1 }, res.2 - 1)
  else
    (mgr, index - 1)

/-- `IDManager.get_face_id`: identical algorithm on the face map (the
`is_edge_extraction` parameter of the source only selects a log level and
is omitted). -/
def IDManager.get_face_id (mgr : IDManager) (face : ShapeRef) : IDManager × Nat :=
  let index := mapFindIndex mgr.face_map face
  if index = 0 then
    let res := mapAdd mgr.face_map face
    ({ mgr with face_map := res.1 }, res.2 - 1)
  else
    (mgr, index - 1)

/-- `IDManager.reset`: clear both maps. -/
def IDManager.reset (_ : IDManager) : IDManager :=
  { edge_map := [], face_map := [] }

/-! ## Face feature extraction (`data_preprocess_step/src/core/geometric_faces`)

`FaceKernel` records the outcome of every kernel query the face extractor
makes for one face; `none` means the call raised.  The UV-bound queries
(`FirstUParameter` .. `LastVParameter`) are issued both by
`_extract_parameter_domain` and again by `_calculate_uv_center` and the
cylinder geometry step; one deterministic outcome field models all of these
call sites. -/

/-- Kernel-query outcomes for one face. -/
structure FaceKernel where
  /-- `adaptor.FirstUParameter/LastUParameter/FirstVParameter/LastVParameter`. -/
  uvBounds : Option (ℚ × ℚ × ℚ × ℚ)
  /-- `adaptor.Value(u_center, v_center)`: the 3D point at mid-UV. -/
  valueAt : Option (ℚ × ℚ × ℚ)
  /-- `brepgprop.SurfaceProperties` + `props.Mass()`: the area. -/
  area : Option ℚ
  /-- `BRep_Tool.Tolerance(face)`. -/
  tolerance : Option ℚ
  /-- `BRep_Tool.NaturalRestriction(face)` and `face.Orientation()`
  (one `try` block in `_extract_topology_features`). -/
  topo : Option (Bool × TopAbsOrient)
  /-- `adaptor.Cylinder()` axis direction and radius (cylinder faces). -/
  cylAxisRadius : Option ((ℚ × ℚ × ℚ) × ℚ)
  /-- `p1.Distance(p2)` between the two V-extreme points (inner `try` of the
  cylinder height computation; on failure the code falls back to
  `abs(v_last - v_first)` without raising the error flag). -/
  heightDist : Option ℚ
deriving DecidableEq, Repr

/-- The mutable feature attributes of a `BaseFace` object (plus the
cylinder-specific attributes, which only `CylindricalFace` code touches). -/
structure FaceRec where
  id : Nat
  type : String
  uv_bounds : PyVal
  area : PyVal
  center : PyVal
  tolerance : PyVal
  natural_restriction : PyVal
  orientation : PyVal
  axis_direction : PyVal
  radius : PyVal
  height : PyVal
  angular_range : PyVal
  is_full_cylinder : PyVal
  error : Bool
deriving DecidableEq, Repr

/-- The freshly constructed face object: `__init__` leaves the feature
attributes `None` (modelled by `num 0`; every field is overwritten before
being read) and clears the error flag. -/
def FaceRec.init (face_id : Nat) : FaceRec :=
  { id := face_id, type := "", uv_bounds := .num 0, area := .num 0,
    center := .num 0, tolerance := .num 0, natural_restriction := .num 0,
    orientation := .num 0, axis_direction := .num 0, radius := .num 0,
    height := .num 0, angular_range := .num 0, is_full_cylinder := .num 0,
    error := false }

/-- `BaseFace._extract_parameter_domain`: store the four UV bounds; on a
raised query store the scalar sentinel `-1` and raise the error flag. -/
def BaseFace.extract_parameter_domain (K : FaceKernel) (r : FaceRec) : FaceRec :=
  match K.uvBounds with
  | some (u0, u1, v0, v1) => { r with uv_bounds := .vec [u0, u1, v0, v1] }
  | none => { r with uv_bounds := .num (-1), error := true }

/-- `BaseFace._calculate_uv_center`: re-queries the UV bounds, then
evaluates the surface at mid-UV; a failure of either query stores the
scalar sentinel `-1` (not a 3-vector) and raises the error flag. -/
def BaseFace.calculate_uv_center (K : FaceKernel) (r : FaceRec) : FaceRec :=
  match K.uvBounds, K.valueAt with
  | some _, some (x, y, z) => { r with center := .vec [x, y, z] }
  | _, _ => { r with center := .num (-1), error := true }

/-- `BaseFace._extract_metric_features`: area (own `try`), then center. -/
def BaseFace.extract_metric_features (K : FaceKernel) (r : FaceRec) : FaceRec :=
  let r1 :=
    match K.area with
    | some a => { r with area := .num a }
    | none => { r with area := .num (-1), error := true }
  BaseFace.calculate_uv_center K r1

/-- `BaseFace._extract_precision_features`. -/
def BaseFace.extract_precision_features (K : FaceKernel) (r : FaceRec) : FaceRec :=
  match K.tolerance with
  | some t => { r with tolerance := .num t }
  | none => { r with tolerance := .num (-1), error := true }

/-- `BaseFace._extract_topology_features`: `int(bool(NaturalRestriction))`
and the orientation code; one `try` block covers both, a failure sets both
to `-1`. -/
def BaseFace.extract_topology_features (K : FaceKernel) (r : FaceRec) : FaceRec :=
  match K.topo with
  | some (nr, ori) =>
      { r with natural_restriction := .num (if nr then 1 else 0),
               orientation := .num (Orientation.from_topabs ori) }
  | none =>
      { r with natural_restriction := .num (-1), orientation := .num (-1),
               error := true }

/-- `BaseFace._extract_base_features`: set the type name, then run the four
base sub-steps in source order. -/
def BaseFace.extract_base_features (K : FaceKernel) (tname : String)
    (r : FaceRec) : FaceRec :=
  BaseFace.extract_topology_features K
    (BaseFace.extract_precision_features K
      (BaseFace.extract_metric_features K
        (BaseFace.extract_parameter_domain K { r with type := tname })))

/-- `BaseFace.get_feature_vector`: `extend` the two vector-valued fields,
`append` the four scalar fields.  `extend` on a scalar raises `TypeError`
(`none`). -/
def BaseFace.get_feature_vector (r : FaceRec) : Option (List PyVal) := do
  let v ← pyExtend [] r.uv_bounds
  let v ← pyExtend v r.center
  let v := pyAppend v r.area
  let v := pyAppend v r.tolerance
  let v := pyAppend v r.natural_restriction
  some (pyAppend v r.orientation)

/-- `OtherSurface.extract_all_features` for an unrecognized surface kind:
the base tier runs, `_extract_geometry_features` is a no-op.  `tname` is
the `surface_type_name` the extractor passed (for example `"OtherSurface"`
or the fallback `"Unknown"`). -/
def OtherSurface.extract_all_features (K : FaceKernel) (face_id : Nat)
    (tname : String) : FaceRec :=
  BaseFace.extract_base_features K tname (FaceRec.init face_id)

/-- `OtherSurface.get_feature_vector`: exactly the base feature vector. -/
def OtherSurface.get_feature_vector (r : FaceRec) : Option (List PyVal) :=
  BaseFace.get_feature_vector r

/-- `CylindricalFace._extract_geometry_features`: axis direction, radius,
height (with the `abs(v_last - v_first)` fallback), angular span and the
full-cylinder flag; any raised query in the outer `try` sets every
geometry field to the scalar sentinel `-1` and raises the error flag. -/
def CylindricalFace.extract_geometry_features (K : FaceKernel) (r : FaceRec) :
    FaceRec :=
  match K.cylAxisRadius, K.uvBounds with
  | some ((ax, ay, az), rad), some (u0, u1, v0, v1) =>
      let angular_range := u1 - u0
      let h :=
        match K.heightDist with
        | some d => d
        | none => |v1 - v0|
      { r with axis_direction := .vec [ax, ay, az], radius := .num rad,
               height := .num h, angular_range := .num angular_range,
               is_full_cylinder := .num
                 (if |angular_range - MathConstants.TWO_PI| <
                     MathConstants.FULL_CIRCLE_TOLERANCE then 1 else 0) }
  | _, _ =>
      { r with axis_direction := .num (-1), radius := .num (-1),
               height := .num (-1), angular_range := .num (-1),
               is_full_cylinder := .num (-1), error := true }

/-- `CylindricalFace.extract_all_features`: base tier (type name
`"Cylinder"`), then the cylinder geometry tier. -/
def CylindricalFace.extract_all_features (K : FaceKernel) (face_id : Nat) :
    FaceRec :=
  CylindricalFace.extract_geometry_features K
    (BaseFace.extract_base_features K "Cylinder" (FaceRec.init face_id))

/-- `CylindricalFace.get_feature_vector`: the base vector, then `extend`
with the axis direction and `append` the four cylinder scalars. -/
def CylindricalFace.get_feature_vector (r : FaceRec) : Option (List PyVal) := do
  let v ← BaseFace.get_feature_vector r
  let v ← pyExtend v r.axis_direction
  let v := pyAppend v r.radius
  let v := pyAppend v r.height
  let v := pyAppend v r.angular_range
  some (pyAppend v r.is_full_cylinder)

/-- Widths of the base-tier fields in feature-vector order
(`uv_bounds`, `center`, `area`, `tolerance`, `natural_restriction`,
`orientation`). -/
def BaseFace.baseFieldWidths : List Nat := [4, 3, 1, 1, 1, 1]

/-- Declared width of an `OtherSurface` feature vector: the base tier
only. -/
def OtherSurface.declaredWidth : Nat := BaseFace.baseFieldWidths.sum

/-- Widths of the cylinder-specific fields (`axis_direction`, `radius`,
`height`, `angular_range`, `is_full_cylinder`). -/
def CylindricalFace.specificFieldWidths : List Nat := [3, 1, 1, 1, 1]

/-- Declared width of a `CylindricalFace` feature vector. -/
def CylindricalFace.declaredWidth : Nat :=
  OtherSurface.declaredWidth + CylindricalFace.specificFieldWidths.sum

/-! ## Edge feature extraction (`data_preprocess_step/src/core/geometric_edges/base_edge.py`)

`EdgeKernel` records the outcome of every kernel query the base-edge
extractor makes for one edge. -/

/-- Kernel-query outcomes for one edge. -/
structure EdgeKernel where
  /-- `adaptor.FirstParameter()/LastParameter()`. -/
  paramRange : Option (ℚ × ℚ)
  /-- `BRep_Tool.Tolerance/SameParameter/SameRange` (one `try` block). -/
  precision : Option (ℚ × Bool × Bool)
  /-- `BRep_Tool.Continuity(edge, face1, face2)` (`none` = raised). -/
  continuity : Option GeomAbsCont
  /-- `BRep_Tool.IsClosed/Degenerated` and `edge.Orientation()`
  (one `try` block). -/
  topoAttrs : Option (Bool × Bool × TopAbsOrient)
  /-- `brepgprop.LinearProperties` + `props.Mass()`: the length. -/
  linearMass : Option ℚ
deriving DecidableEq, Repr

/-- The mutable feature attributes of a `BaseEdge` object. -/
structure EdgeRec where
  edge_id : Nat
  type : String
  connected_faces : List Nat
  src_node_id : Nat
  dst_node_id : Nat
  num_face_objects : Nat
  parameter_range : PyVal
  tolerance : PyVal
  same_parameter : PyVal
  same_range : PyVal
  edge_role : PyVal
  continuity : PyVal
  is_closed : PyVal
  is_degenerated : PyVal
  orientation : PyVal
  length : PyVal
  error : Bool
deriving DecidableEq, Repr

/-- `BaseEdge.__init__`: unconditionally reads `connected_faces[0]` and
`connected_faces[-1]`; an empty list raises `IndexError` (`none`).
`num_face_objects` is the length of the `face_objects` list handed in for
the continuity computation. -/
def BaseEdge.init (edge_id : Nat) (connected_faces : List Nat)
    (num_face_objects : Nat) : Option EdgeRec :=
  match connected_faces with
  | [] => none
  | f0 :: rest =>
      some { edge_id := edge_id, type := "",
             connected_faces := f0 :: rest,
             src_node_id := f0,
             dst_node_id := (f0 :: rest).getLast (List.cons_ne_nil f0 rest),
             num_face_objects := num_face_objects,
             parameter_range := .num 0, tolerance := .num 0,
             same_parameter := .num 0, same_range := .num 0,
             edge_role := .num 0, continuity := .num 0, is_closed := .num 0,
             is_degenerated := .num 0, orientation := .num 0,
             length := .num 0, error := false }

/-- `BaseEdge._extract_parameter_features`: the two curve parameters; on a
raised query the scalar sentinel `-1` and the error flag. -/
def BaseEdge.extract_parameter_features (K : EdgeKernel) (r : EdgeRec) : EdgeRec :=
  match K.paramRange with
  | some (a, b) => { r with parameter_range := .vec [a, b] }
  | none => { r with parameter_range := .num (-1), error := true }

/-- `BaseEdge._extract_precision_features`: tolerance and the two precision
flags; one `try` block, a failure sets all three to `-1`. -/
def BaseEdge.extract_precision_features (K : EdgeKernel) (r : EdgeRec) : EdgeRec :=
  match K.precision with
  | some (t, sp, sr) =>
      { r with tolerance := .num t,
               same_parameter := .num (if sp then 1 else 0),
               same_range := .num (if sr then 1 else 0) }
  | none =>
      { r with tolerance := .num (-1), same_parameter := .num (-1),
               same_range := .num (-1), error := true }

/-- `BaseEdge._calculate_continuity`: `NONE` outright when fewer than two
face objects are attached; otherwise the kernel continuity mapped through
`Continuity.from_geomabs`, with `NONE` plus the error flag on a raised
call.  Returns the continuity code and the updated error flag. -/
def BaseEdge.calculate_continuity (K : EdgeKernel) (r : EdgeRec) : ℚ × Bool :=
  if r.num_face_objects < 2 then
    (Continuity.NONE, r.error)
  else
    match K.continuity with
    | some g => (Continuity.from_geomabs g, r.error)
    | none => (Continuity.NONE, true)

/-- `BaseEdge._calculate_length`: the mass of the linear properties, `-1`
plus the error flag when the kernel call raises. -/
def BaseEdge.calculate_length (K : EdgeKernel) (r : EdgeRec) : ℚ × Bool :=
  match K.linearMass with
  | some m => (m, r.error)
  | none => (-1, true)

/-- `BaseEdge._extract_topology_features`: edge role from the number of
connected faces, continuity, the closed/degenerate/orientation attributes
(one `try` block), then the length. -/
def BaseEdge.extract_topology_features (K : EdgeKernel) (r : EdgeRec) : EdgeRec :=
  let r := { r with edge_role := .num (EdgeRole.from_num_faces r.connected_faces.length) }
  let c := BaseEdge.calculate_continuity K r
  let r := { r with continuity := .num c.1, error := c.2 }
  let r :=
    match K.topoAttrs with
    | some (cl, dg, ori) =>
        { r with is_closed := .num (if cl then 1 else 0),
                 is_degenerated := .num (if dg then 1 else 0),
                 orientation := .num (Orientation.from_topabs ori) }
    | none =>
        { r with is_closed := .num (-1), is_degenerated := .num (-1),
                 orientation := .num (-1), error := true }
  let l := BaseEdge.calculate_length K r
  { r with length := .num l.1, error := l.2 }

/-- `BaseEdge._extract_base_features`: set the type name, then the three
base sub-step groups in source order. -/
def BaseEdge.extract_base_features (K : EdgeKernel) (tname : String)
    (r : EdgeRec) : EdgeRec :=
  BaseEdge.extract_topology_features K
    (BaseEdge.extract_precision_features K
      (BaseEdge.extract_parameter_features K { r with type := tname }))

/-- `extract_all_features` for an edge kind whose geometry tier is a no-op
(`OtherCurve`): construction followed by the base tier.  `none` = the
constructor raised on an empty bounding-face list. -/
def BaseEdge.extract_all_features (K : EdgeKernel) (edge_id : Nat)
    (tname : String) (connected_faces : List Nat) (num_face_objects : Nat) :
    Option EdgeRec :=
  (BaseEdge.init edge_id connected_faces num_face_objects).map
    (BaseEdge.extract_base_features K tname)

/-! ## Extraction pipeline loops (`data_preprocess_step/src/feature_extract.py`)

The traversal of the shape is modelled by the list of entities the explorer
visits, each given as the shape key the id registry sees together with the
(deterministic) outcome of classifying and extracting that entity: its
`type` tag and its error flag.  Re-visits of the same underlying entity
carry the same key and the same outcome.

Both `extract_faces_objects` and `extract_edges_objects` contain
`continue` statements that skip the final `explorer.Next()` call of the
`while explorer.More()` loop.  When such a `continue` fires, the loop
variable, the `processed` set, the accumulator and the id registry are all
unchanged, so the next iteration repeats the previous one exactly: the
loop never terminates.  The denotation of the loop is therefore an
`Option`: `some objects` when the loop reaches the end of the traversal,
`none` when it hits an entity that makes it loop forever.  The fuel-indexed
variants below mirror the loop iteration-by-iteration and are related to
the denotations by theorems. -/

/-- One visited entity: the shape key (identity registry view) together
with the classification tag and error flag its extraction produces. -/
structure LoopEntity where
  key : Nat
  type : String
  error : Bool
deriving DecidableEq, Repr

/-- The face-extraction loop.  Per iteration: skip an already-processed
key; otherwise a face whose classification fell back to `"Unknown"` or
whose error flag was raised triggers `continue` without `Next()` —
divergence, `none`; otherwise the face is appended and its key marked
processed. -/
def extract_faces_objects_go :
    List LoopEntity → List Nat → List LoopEntity → Option (List LoopEntity)
  | [], _, acc => some acc
  | f :: rest, processed, acc =>
      if f.key ∈ processed then
        extract_faces_objects_go rest processed acc
      else if f.type = "Unknown" then
        none
      else if f.error then
        none
      else
        extract_faces_objects_go rest (f.key :: processed) (acc ++ [f])

/-- `FeatureExtractor.extract_faces_objects` on a traversal. -/
def extract_faces_objects (faces : List LoopEntity) : Option (List LoopEntity) :=
  extract_faces_objects_go faces [] []

/-- The face-extraction loop with explicit fuel, one unit per iteration of
the `while` loop; `none` when the fuel runs out.  The two `continue`
branches repeat the iteration with unchanged state. -/
def extract_faces_objects_fuel :
    Nat → List LoopEntity → List Nat → List LoopEntity → Option (List LoopEntity)
  | 0, _, _, _ => none
  | _ + 1, [], _, acc => some acc
  | n + 1, f :: rest, processed, acc =>
      if f.key ∈ processed then
        extract_faces_objects_fuel n rest processed acc
      else if f.type = "Unknown" then
        extract_faces_objects_fuel n (f :: rest) processed acc
      else if f.error then
        extract_faces_objects_fuel n (f :: rest) processed acc
      else
        extract_faces_objects_fuel n rest (f.key :: processed) (acc ++ [f])

/-- The edge-extraction loop: an edge is only discarded-by-`continue` when
its type tag is `"Unknown"`; its error flag is not consulted. -/
def extract_edges_objects_go :
    List LoopEntity → List Nat → List LoopEntity → Option (List LoopEntity)
  | [], _, acc => some acc
  | e :: rest, processed, acc =>
      if e.key ∈ processed then
        extract_edges_objects_go rest processed acc
      else if e.type = "Unknown" then
        none
      else
        extract_edges_objects_go rest (e.key :: processed) (acc ++ [e])

/-- `FeatureExtractor.extract_edges_objects` on a traversal. -/
def extract_edges_objects (edges : List LoopEntity) : Option (List LoopEntity) :=
  extract_edges_objects_go edges [] []

/-- The edge-extraction loop with explicit fuel. -/
def extract_edges_objects_fuel :
    Nat → List LoopEntity → List Nat → List LoopEntity → Option (List LoopEntity)
  | 0, _, _, _ => none
  | _ + 1, [], _, acc => some acc
  | n + 1, e :: rest, processed, acc =>
      if e.key ∈ processed then
        extract_edges_objects_fuel n rest processed acc
      else if e.type = "Unknown" then
        extract_edges_objects_fuel n (e :: rest) processed acc
      else
        extract_edges_objects_fuel n rest (e.key :: processed) (acc ++ [e])

/-- First occurrence of each key, in traversal order, ignoring keys already
in `seen`: the entities a fully fail-free run of the loops emits. -/
def firstOccurrences : List LoopEntity → List Nat → List LoopEntity
  | [], _ => []
  | f :: rest, seen =>
      if f.key ∈ seen then firstOccurrences rest seen
      else f :: firstOccurrences rest (f.key :: seen)

/-! ## Connectivity resolution (`feature_extract.py`)

The kernel's `TopTools_IndexedDataMapOfShapeListOfShape` built by
`MapShapesAndAncestors` is modelled as an association list from edge key to
the full list of bounding-face keys. -/

/-- `FeatureExtractor._get_connected_faces_from_edge`: when the edge is in
the ancestor map, append `First()` of its face list and, when the list has
more than one element, `Last()`; everything strictly between first and last
is never read. -/
def get_connected_faces_from_edge (edge_face_map : List (Nat × List Nat))
    (edge : Nat) : List Nat :=
  match edge_face_map.lookup edge with
  | none => []
  | some face_list =>
      (if 0 < face_list.length then [face_list.headD 0] else []) ++
        (if 1 < face_list.length then [face_list.getLastD 0] else [])

/-! ## Heterogeneous graph assembly (`data_preprocess_step/src/graph.py` and
`data_preprocess/graph.py`)

`HeterogeneousGraph.nodes` is a Python dict keyed by node id: modelled as
an association list in insertion order, where inserting an existing key
replaces the value in place.  `add_edge` is the same code in both pipeline
variants (`edge.src_node_id`/`edge.dst_node_id` endpoint check, warning
diagnostic and exclusion on failure). -/

/-- A node record as the assembler sees it: id, kind tag, feature vector. -/
structure GNode where
  id : Nat
  type : String
  feat : List PyVal
deriving DecidableEq, Repr

/-- An edge record as the assembler sees it. -/
structure GEdge where
  src_node_id : Nat
  dst_node_id : Nat
  type : String
  feat : List PyVal
deriving DecidableEq, Repr

/-- The graph under construction. -/
structure HetGraph where
  nodes : List (Nat × GNode)
  edges : List GEdge
deriving DecidableEq, Repr

/-- Python dict assignment `d[k] = v`: replace in place, or append. -/
def dictInsert (m : List (Nat × GNode)) (k : Nat) (v : GNode) :
    List (Nat × GNode) :=
  if (m.lookup k).isSome then
    m.map (fun p => if p.1 = k then (k, v) else p)
  else
    m ++ [(k, v)]

/-- `HeterogeneousGraph.add_node`: `self.nodes[node.id] = node`. -/
def HetGraph.add_node (g : HetGraph) (n : GNode) : HetGraph :=
  { g with nodes := dictInsert g.nodes n.id n }

/-- `HeterogeneousGraph.add_edge`: append the edge exactly when both
endpoint ids are keys of the node dict; otherwise print a warning (the
returned flag) and leave the graph unchanged. -/
def HetGraph.add_edge (g : HetGraph) (e : GEdge) : HetGraph × Bool :=
  if (g.nodes.lookup e.src_node_id).isSome ∧
      (g.nodes.lookup e.dst_node_id).isSome then
    ({ g with edges := g.edges ++ [e] }, false)
  else
    (g, true)

/-- `self.nodes.values()` in dict order. -/
def HetGraph.nodeValues (g : HetGraph) : List GNode :=
  g.nodes.map (fun p => p.2)

/-- The `nodes_by_type` group of one node type, in encounter order
(`build_dgl_graph` appends to `nodes_by_type[node.type]` while iterating
`self.nodes.values()`). -/
def HetGraph.nodesOfType (g : HetGraph) (t : String) : List GNode :=
  (g.nodeValues).filter (fun n => n.type = t)

/-- `node_type_id_mapping[t][nid]`: the 0-based local index assigned by
`enumerate` over the type group. -/
def HetGraph.localIndex (g : HetGraph) (t : String) (nid : Nat) : Nat :=
  (g.nodesOfType t).findIdx (fun n => n.id = nid)

/-- `nodes_feat_by_type[t]`: the stacked feature vectors of one type
group. -/
def HetGraph.nodeFeatsOfType (g : HetGraph) (t : String) : List (List PyVal) :=
  (g.nodesOfType t).map (fun n => n.feat)

/-- The canonical relation triple of an edge:
`(src_node.type, edge.type, dst_node.type)`; `none` when an endpoint id is
missing from the node dict (a `KeyError` in `build_dgl_graph`). -/
def HetGraph.canonicalTriple (g : HetGraph) (e : GEdge) :
    Option (String × String × String) := do
  let s ← g.nodes.lookup e.src_node_id
  let d ← g.nodes.lookup e.dst_node_id
  some (s.type, e.type, d.type)

/-- The edges of one canonical relation, in edge-list order. -/
def HetGraph.relEdges (g : HetGraph) (tr : String × String × String) :
    List GEdge :=
  g.edges.filter (fun e => decide (g.canonicalTriple e = some tr))

/-- `hetero_graph_data[tr][0]`: the source local-index array. -/
def HetGraph.relSrcIds (g : HetGraph) (tr : String × String × String) :
    List Nat :=
  (g.relEdges tr).map (fun e => g.localIndex tr.1 e.src_node_id)

/-- `hetero_graph_data[tr][1]`: the destination local-index array. -/
def HetGraph.relDstIds (g : HetGraph) (tr : String × String × String) :
    List Nat :=
  (g.relEdges tr).map (fun e => g.localIndex tr.2.2 e.dst_node_id)

/-- `edge_features_by_type[tr]`: one feature vector per relation
instance. -/
def HetGraph.relFeats (g : HetGraph) (tr : String × String × String) :
    List (List PyVal) :=
  (g.relEdges tr).map (fun e => e.feat)

/-- Well-formedness of the assembler state: dict keys are unique, each
value carries its key as id (guaranteed by `add_node`), and every edge
endpoint is a present key (guaranteed by `add_edge`). -/
def HetGraph.WF (g : HetGraph) : Prop :=
  (g.nodes.map (fun p => p.1)).Nodup ∧
  (∀ p ∈ g.nodes, p.2.id = p.1) ∧
  (∀ e ∈ g.edges, (g.nodes.lookup e.src_node_id).isSome ∧
    (g.nodes.lookup e.dst_node_id).isSome)

/-! ## Feature alignment / homogenization (`data_preprocess/graph.py`,
`data_preprocess/feature_config.py`)

Feature tensors are modelled as lists of rows (`List (List ℚ)`); the
torch row operations act identically on every row, so the per-row
functions below are mapped over the tensor. -/

/-- `FeatureConfig.MAIN_FEATURES`: name and width of the shared main
features, in declaration order. -/
def FeatureConfig.MAIN_FEATURES : List (String × Nat) :=
  [("面类型", 1), ("内外表面", 1), ("原点", 3), ("法向量", 3), ("面积", 1)]

/-- `FeatureConfig.NODE_SPECIFIC_FEATURES`: per node type, the ordered
kind-specific feature names (every width is 1). -/
def FeatureConfig.NODE_SPECIFIC_FEATURES : List (String × List String) :=
  [("cylinder", ["圆柱面半径", "高度", "相对面轴线包角"]),
   ("fillet", ["倒圆半径", "弧度", "倒角面夹角", "倒角面宽度"]),
   ("torus", ["圆环面小径", "圆环面中径", "弧度", "小径绕中径上张角",
              "相对圆环面轴线张角"]),
   ("cone", ["圆锥面半径", "圆锥半锥角", "高度", "相对面轴线包角"]),
   ("sphere", ["球半径", "弧度"])]

/-- `FeatureConfig.get_main_feature_dim()`: the summed main widths (9). -/
def FeatureConfig.main_dim : Nat :=
  (FeatureConfig.MAIN_FEATURES.map (fun p => p.2)).sum

/-- Lexicographic comparison of character lists by code point — exactly
the order Python's `sorted` uses on strings. -/
def charListLt : List Char → List Char → Bool
  | _, [] => false
  | [], _ :: _ => true
  | a :: as, b :: bs =>
      if a.toNat < b.toNat then true
      else if b.toNat < a.toNat then false
      else charListLt as bs

/-- Python's `<` on strings: code-point lexicographic order. -/
def strLt (s t : String) : Bool :=
  charListLt s.data t.data

/-- Insert into a code-point-sorted list of strings. -/
def insertSortedStr (s : String) : List String → List String
  | [] => [s]
  | t :: ts => if strLt t s then t :: insertSortedStr s ts else s :: t :: ts

/-- Insertion sort on strings: the effect of Python's `sorted`. -/
def sortStrs : List String → List String
  | [] => []
  | s :: rest => insertSortedStr s (sortStrs rest)

/-- `HeterogeneousGraph._collect_all_specific_features`: the deduplicated,
sorted union of all kind-specific feature names — the global slot table. -/
def collect_all_specific_features : List String :=
  sortStrs (FeatureConfig.NODE_SPECIFIC_FEATURES.flatMap (fun p => p.2)).dedup

/-- One row of `HeterogeneousGraph._align_node_features` for node type
`ntype`: allocate `main_dim + |global slots|` zeros, copy the first
`min(main_dim, current_dim)` entries verbatim, then copy this type's own
specific features — read sequentially from position `main_dim` of the
input row — into their global slots. -/
def align_node_row (ntype : String) (row : List ℚ) : List ℚ :=
  let mainDim := FeatureConfig.main_dim
  let globals := collect_all_specific_features
  let totalDim := mainDim + globals.length
  let currentDim := row.length
  let base : List ℚ :=
    (List.range totalDim).map
      (fun i => if i < min mainDim currentDim then row.getD i 0 else 0)
  let own : List String :=
    (FeatureConfig.NODE_SPECIFIC_FEATURES.lookup ntype).getD []
  (own.foldl
    (fun st name =>
      match globals.indexOf? name with
      | some gi =>
          ((if st.2 < currentDim then
              st.1.set (mainDim + gi) (row.getD st.2 0)
            else st.1), st.2 + 1)
      | none => st)
    (base, mainDim)).1

/-- One row of `HeterogeneousGraph._align_edge_features` when the tensor is
narrower than the 4-slot target: `arc` rows copy their first four entries
(dead inside the `current_dim < 4` branch), `straight` rows map their two
entries to slots 0 and 3, anything else copies what fits. -/
def align_edge_row (etype : String) (currentDim : Nat) (row : List ℚ) : List ℚ :=
  if etype = "arc" ∧ 4 ≤ currentDim then
    (List.range 4).map (fun i => if i < 4 then row.getD i 0 else 0)
  else if etype = "straight" ∧ 2 ≤ currentDim then
    [row.getD 0 0, 0, 0, row.getD 1 0]
  else
    (List.range 4).map (fun i => if i < min currentDim 4 then row.getD i 0 else 0)

/-- `_align_edge_features` on one edge tensor: nothing happens unless the
tensor's width (`shape[1]`, the common row width) is below 4. -/
def align_edge_rows (etype : String) (rows : List (List ℚ)) :
    List (List ℚ) :=
  let currentDim := (rows.headD []).length
  if currentDim < 4 then rows.map (align_edge_row etype currentDim) else rows

/-- The node and edge feature tensors of the DGL heterogeneous graph, by
node type and canonical edge type. -/
structure TensorGraph where
  nodeTensors : List (String × List (List ℚ))
  edgeTensors : List ((String × String × String) × List (List ℚ))
deriving DecidableEq, Repr

/-- `HeterogeneousGraph._align_node_features`: every node type's tensor is
rebuilt row by row. -/
def TensorGraph.align_node_features (g : TensorGraph) : TensorGraph :=
  { g with nodeTensors :=
      g.nodeTensors.map (fun p => (p.1, p.2.map (align_node_row p.1))) }

/-- `HeterogeneousGraph._align_edge_features`: every canonical edge type's
tensor is aligned (the edge kind is the middle component of the triple). -/
def TensorGraph.align_edge_features (g : TensorGraph) : TensorGraph :=
  { g with edgeTensors :=
      g.edgeTensors.map (fun p => (p.1, align_edge_rows p.1.2.1 p.2)) }

/-- The two alignment passes run by `to_homogeneous`, in source order. -/
def TensorGraph.homogenize_align (g : TensorGraph) : TensorGraph :=
  TensorGraph.align_edge_features (TensorGraph.align_node_features g)

/-- The graph is in homogenized form: every node row has the global width
`main_dim + |global slots|` and every edge row has width 4. -/
def TensorGraph.HomogenizedForm (g : TensorGraph) : Prop :=
  (∀ p ∈ g.nodeTensors, ∀ row ∈ p.2,
      row.length = FeatureConfig.main_dim + collect_all_specific_features.length) ∧
  (∀ p ∈ g.edgeTensors, ∀ row ∈ p.2, row.length = 4)

instance (g : TensorGraph) : Decidable g.HomogenizedForm := by
  unfold TensorGraph.HomogenizedForm
  infer_instance

/-! ## Helper lemmas -/

theorem indexOf?_eq_none_of_not_mem {m : List Nat} {k : Nat} (h : k ∉ m) :
    m.indexOf? k = none := by
  rw [List.indexOf?_eq_none_iff]
  intro x hx hbeq
  rw [beq_iff_eq] at hbeq
  exact h (hbeq ▸ hx)

theorem indexOf?_append_sing {m : List Nat} {k : Nat} (h : k ∉ m) :
    (m ++ [k]).indexOf? k = some m.length := by
  induction m with
  | nil => simp [List.indexOf?_cons]
  | cons a t ih =>
      simp only [List.cons_append, List.indexOf?_cons]
      have ha : ¬(a == k) = true := by
        simp only [beq_iff_eq]
        rintro rfl
        exact h (List.mem_cons_self a t)
      rw [if_neg ha, ih (fun hm => h (List.mem_cons_of_mem _ hm))]
      simp

theorem indexOf?_append_left {m s : List Nat} {k : Nat} (h : k ∈ m) :
    (m ++ s).indexOf? k = m.indexOf? k := by
  induction m with
  | nil => cases h
  | cons a t ih =>
      simp only [List.cons_append, List.indexOf?_cons]
      by_cases hak : (a == k) = true
      · rw [if_pos hak, if_pos hak]
      · rw [if_neg hak, if_neg hak]
        have hkt : k ∈ t := by
          rcases List.mem_cons.mp h with h1 | h1
          · exact absurd (by simp [h1]) hak
          · exact h1
        rw [ih hkt]

theorem indexOf?_getElem {m : List Nat} {k i : Nat}
    (h : m.indexOf? k = some i) : m[i]? = some k := by
  induction m generalizing i with
  | nil => simp at h
  | cons a t ih =>
      rw [List.indexOf?_cons] at h
      by_cases hak : (a == k) = true
      · rw [if_pos hak] at h
        cases h
        simpa using (beq_iff_eq.mp hak)
      · rw [if_neg hak] at h
        cases hi : t.indexOf? k with
        | none => rw [hi] at h; simp at h
        | some j =>
            rw [hi] at h
            simp only [Option.map] at h
            cases h
            simpa using ih hi

theorem indexOf?_lt_length {m : List Nat} {k i : Nat}
    (h : m.indexOf? k = some i) : i < m.length := by
  have := indexOf?_getElem h
  exact (List.getElem?_eq_some_iff.mp this).1

theorem exists_indexOf?_of_mem {m : List Nat} {k : Nat} (h : k ∈ m) :
    ∃ i, m.indexOf? k = some i := by
  cases hi : m.indexOf? k with
  | some i => exact ⟨i, rfl⟩
  | none =>
      rw [List.indexOf?_eq_none_iff] at hi
      exact absurd (by simp) (hi k h)

theorem get_edge_id_not_mem (mgr : IDManager) (e : ShapeRef)
    (h : e.key ∉ mgr.edge_map) :
    mgr.get_edge_id e =
      ({ mgr with edge_map := mgr.edge_map ++ [e.key] }, mgr.edge_map.length) := by
  simp [IDManager.get_edge_id, mapFindIndex, mapAdd,
    indexOf?_eq_none_of_not_mem h]

theorem get_edge_id_mem (mgr : IDManager) (e : ShapeRef) (i : Nat)
    (h : mgr.edge_map.indexOf? e.key = some i) :
    mgr.get_edge_id e = (mgr, i) := by
  simp [IDManager.get_edge_id, mapFindIndex, mapAdd, h]

theorem get_face_id_not_mem (mgr : IDManager) (f : ShapeRef)
    (h : f.key ∉ mgr.face_map) :
    mgr.get_face_id f =
      ({ mgr with face_map := mgr.face_map ++ [f.key] }, mgr.face_map.length) := by
  simp [IDManager.get_face_id, mapFindIndex, mapAdd,
    indexOf?_eq_none_of_not_mem h]

theorem get_face_id_mem (mgr : IDManager) (f : ShapeRef) (i : Nat)
    (h : mgr.face_map.indexOf? f.key = some i) :
    mgr.get_face_id f = (mgr, i) := by
  simp [IDManager.get_face_id, mapFindIndex, mapAdd, h]


/-- C4: the Identity Registry is a function of structural shape equality:
within one run after `reset`, the first `idFor` call on a structurally
novel entity returns the next sequential 0-based integer, any later call on
a structurally equal entity (even a different wrapper object, and after any
amount of later allocation) returns the same integer, and calls on two
structurally distinct entities return distinct integers — for the edge
registry and the face registry alike. -/
theorem claim_C4 :
    (∀ mgr : IDManager,
        (IDManager.reset mgr).edge_map = [] ∧ (IDManager.reset mgr).face_map = []) ∧
    (∀ (mgr : IDManager) (e : ShapeRef), e.key ∉ mgr.edge_map →
        mgr.get_edge_id e =
          ({ mgr with edge_map := mgr.edge_map ++ [e.key] }, mgr.edge_map.length)) ∧
    (∀ (mgr : IDManager) (f : ShapeRef), f.key ∉ mgr.face_map →
        mgr.get_face_id f =
          ({ mgr with face_map := mgr.face_map ++ [f.key] }, mgr.face_map.length)) ∧
    (∀ (mgr : IDManager) (e e' : ShapeRef) (later : List Nat), e.key = e'.key →
        (IDManager.get_edge_id
            { (mgr.get_edge_id e).1 with
              edge_map := (mgr.get_edge_id e).1.edge_map ++ later } e').2 =
          (mgr.get_edge_id e).2) ∧
    (∀ (mgr : IDManager) (f f' : ShapeRef) (later : List Nat), f.key = f'.key →
        (IDManager.get_face_id
            { (mgr.get_face_id f).1 with
              face_map := (mgr.get_face_id f).1.face_map ++ later } f').2 =
          (mgr.get_face_id f).2) ∧
    (∀ (mgr : IDManager) (e e' : ShapeRef), e.key ≠ e'.key →
        ((mgr.get_edge_id e).1.get_edge_id e').2 ≠ (mgr.get_edge_id e).2) ∧
    (∀ (mgr : IDManager) (f f' : ShapeRef), f.key ≠ f'.key →
        ((mgr.get_face_id f).1.get_face_id f').2 ≠ (mgr.get_face_id f).2) := by
  refine ⟨fun mgr => ⟨rfl, rfl⟩, get_edge_id_not_mem, get_face_id_not_mem,
    ?_, ?_, ?_, ?_⟩
  · intro mgr e e' later hk
    by_cases hm : e.key ∈ mgr.edge_map
    · obtain ⟨i, hi⟩ := exists_indexOf?_of_mem hm
      rw [get_edge_id_mem mgr e i hi]
      show (IDManager.get_edge_id { mgr with edge_map := mgr.edge_map ++ later } e').2 = i
      have hI : (mgr.edge_map ++ later).indexOf? e'.key = some i := by
        rw [← hk, indexOf?_append_left hm, hi]
      rw [get_edge_id_mem { mgr with edge_map := mgr.edge_map ++ later } e' i hI]
    · rw [get_edge_id_not_mem mgr e hm]
      show (IDManager.get_edge_id
          { mgr with edge_map := (mgr.edge_map ++ [e.key]) ++ later } e').2 =
        mgr.edge_map.length
      have hI : ((mgr.edge_map ++ [e.key]) ++ later).indexOf? e'.key =
          some mgr.edge_map.length := by
        rw [← hk, indexOf?_append_left (List.mem_append.mpr (Or.inr (by simp))),
          indexOf?_append_sing hm]
      rw [get_edge_id_mem
        { mgr with edge_map := (mgr.edge_map ++ [e.key]) ++ later } e'
        mgr.edge_map.length hI]
  · intro mgr f f' later hk
    by_cases hm : f.key ∈ mgr.face_map
    · obtain ⟨i, hi⟩ := exists_indexOf?_of_mem hm
      rw [get_face_id_mem mgr f i hi]
      show (IDManager.get_face_id { mgr with face_map := mgr.face_map ++ later } f').2 = i
      have hI : (mgr.face_map ++ later).indexOf? f'.key = some i := by
        rw [← hk, indexOf?_append_left hm, hi]
      rw [get_face_id_mem { mgr with face_map := mgr.face_map ++ later } f' i hI]
    · rw [get_face_id_not_mem mgr f hm]
      show (IDManager.get_face_id
          { mgr with face_map := (mgr.face_map ++ [f.key]) ++ later } f').2 =
        mgr.face_map.length
      have hI : ((mgr.face_map ++ [f.key]) ++ later).indexOf? f'.key =
          some mgr.face_map.length := by
        rw [← hk, indexOf?_append_left (List.mem_append.mpr (Or.inr (by simp))),
          indexOf?_append_sing hm]
      rw [get_face_id_mem
        { mgr with face_map := (mgr.face_map ++ [f.key]) ++ later } f'
        mgr.face_map.length hI]
  · intro mgr e e' hne
    by_cases hm : e.key ∈ mgr.edge_map
    · obtain ⟨i, hi⟩ := exists_indexOf?_of_mem hm
      rw [get_edge_id_mem mgr e i hi]
      show (IDManager.get_edge_id mgr e').2 ≠ i
      by_cases hm' : e'.key ∈ mgr.edge_map
      · obtain ⟨j, hj⟩ := exists_indexOf?_of_mem hm'
        rw [get_edge_id_mem mgr e' j hj]
        show j ≠ i
        intro hij
        subst hij
        have h1 := indexOf?_getElem hi
        have h2 := indexOf?_getElem hj
        rw [h1] at h2
        exact hne (Option.some_injective _ h2)
      · rw [get_edge_id_not_mem mgr e' hm']
        show mgr.edge_map.length ≠ i
        have := indexOf?_lt_length hi
        omega
    · rw [get_edge_id_not_mem mgr e hm]
      show (IDManager.get_edge_id
          { mgr with edge_map := mgr.edge_map ++ [e.key] } e').2 ≠
        mgr.edge_map.length
      by_cases hm' : e'.key ∈ mgr.edge_map
      · obtain ⟨j, hj⟩ := exists_indexOf?_of_mem hm'
        have hI : (mgr.edge_map ++ [e.key]).indexOf? e'.key = some j := by
          rw [indexOf?_append_left hm', hj]
        rw [get_edge_id_mem
          { mgr with edge_map := mgr.edge_map ++ [e.key] } e' j hI]
        show j ≠ mgr.edge_map.length
        have := indexOf?_lt_length hj
        omega
      · have hm2 : e'.key ∉ mgr.edge_map ++ [e.key] := by
          intro hmem
          rcases List.mem_append.mp hmem with h1 | h1
          · exact hm' h1
          · have h2 : e'.key = e.key := by simpa using h1
            exact hne h2.symm
        rw [get_edge_id_not_mem
          { mgr with edge_map := mgr.edge_map ++ [e.key] } e' hm2]
        show (mgr.edge_map ++ [e.key]).length ≠ mgr.edge_map.length
        simp
  · intro mgr f f' hne
    by_cases hm : f.key ∈ mgr.face_map
    · obtain ⟨i, hi⟩ := exists_indexOf?_of_mem hm
      rw [get_face_id_mem mgr f i hi]
      show (IDManager.get_face_id mgr f').2 ≠ i
      by_cases hm' : f'.key ∈ mgr.face_map
      · obtain ⟨j, hj⟩ := exists_indexOf?_of_mem hm'
        rw [get_face_id_mem mgr f' j hj]
        show j ≠ i
        intro hij
        subst hij
        have h1 := indexOf?_getElem hi
        have h2 := indexOf?_getElem hj
        rw [h1] at h2
        exact hne (Option.some_injective _ h2)
      · rw [get_face_id_not_mem mgr f' hm']
        show mgr.face_map.length ≠ i
        have := indexOf?_lt_length hi
        omega
    · rw [get_face_id_not_mem mgr f hm]
      show (IDManager.get_face_id
          { mgr with face_map := mgr.face_map ++ [f.key] } f').2 ≠
        mgr.face_map.length
      by_cases hm' : f'.key ∈ mgr.face_map
      · obtain ⟨j, hj⟩ := exists_indexOf?_of_mem hm'
        have hI : (mgr.face_map ++ [f.key]).indexOf? f'.key = some j := by
          rw [indexOf?_append_left hm', hj]
        rw [get_face_id_mem
          { mgr with face_map := mgr.face_map ++ [f.key] } f' j hI]
        show j ≠ mgr.face_map.length
        have := indexOf?_lt_length hj
        omega
      · have hm2 : f'.key ∉ mgr.face_map ++ [f.key] := by
          intro hmem
          rcases List.mem_append.mp hmem with h1 | h1
          · exact hm' h1
          · have h2 : f'.key = f.key := by simpa using h1
            exact hne h2.symm
        rw [get_face_id_not_mem
          { mgr with face_map := mgr.face_map ++ [f.key] } f' hm2]
        show (mgr.face_map ++ [f.key]).length ≠ mgr.face_map.length
        simp

/-- Witness for C4 at concrete registries and wrappers: a novel edge key 7
allocates id 1 after key 5; a second wrapper (different `wrapperId`) of
face key 3 still gets id 0 after a later allocation; edge keys 4 and 9 get
distinct ids. -/
theorem claim_C4_witness :
    IDManager.get_edge_id ⟨[5], []⟩ ⟨7, 0⟩ =
      ({ (⟨[5], []⟩ : IDManager) with edge_map := [5] ++ [7] }, 1) ∧
    (IDManager.get_face_id
        { ((⟨[], []⟩ : IDManager).get_face_id ⟨3, 0⟩).1 with
          face_map :=
            (((⟨[], []⟩ : IDManager).get_face_id ⟨3, 0⟩).1).face_map ++ [8] }
        ⟨3, 9⟩).2 = ((⟨[], []⟩ : IDManager).get_face_id ⟨3, 0⟩).2 ∧
    ((((⟨[], []⟩ : IDManager).get_edge_id ⟨4, 0⟩).1).get_edge_id ⟨9, 1⟩).2 ≠
      ((⟨[], []⟩ : IDManager).get_edge_id ⟨4, 0⟩).2 := by
  refine ⟨?_, ?_, ?_⟩
  · exact claim_C4.2.1 ⟨[5], []⟩ ⟨7, 0⟩ (by decide)
  · exact claim_C4.2.2.2.2.1 ⟨[], []⟩ ⟨3, 0⟩ ⟨3, 9⟩ [8] (by decide)
  · exact claim_C4.2.2.2.2.2.1 ⟨[], []⟩ ⟨4, 0⟩ ⟨9, 1⟩ (by decide)

/-- Characterization of the base-edge extraction pipeline: each field is a
function of its own sub-step's kernel queries alone, the failure paths
write the scalar sentinel `-1`, and the error flag is the disjunction of
the sub-step failures. -/
theorem base_edge_extract_eq (K : EdgeKernel) (tname : String) (r : EdgeRec) :
    BaseEdge.extract_base_features K tname r =
      { r with
        type := tname,
        parameter_range :=
          match K.paramRange with
          | some (a, b) => .vec [a, b]
          | none => .num (-1),
        tolerance :=
          match K.precision with
          | some (t, _, _) => .num t
          | none => .num (-1),
        same_parameter :=
          match K.precision with
          | some (_, sp, _) => .num (if sp then 1 else 0)
          | none => .num (-1),
        same_range :=
          match K.precision with
          | some (_, _, sr) => .num (if sr then 1 else 0)
          | none => .num (-1),
        edge_role := .num (EdgeRole.from_num_faces r.connected_faces.length),
        continuity := .num
          (if r.num_face_objects < 2 then Continuity.NONE
           else
             match K.continuity with
             | some g => Continuity.from_geomabs g
             | none => Continuity.NONE),
        is_closed :=
          match K.topoAttrs with
          | some (cl, _, _) => .num (if cl then 1 else 0)
          | none => .num (-1),
        is_degenerated :=
          match K.topoAttrs with
          | some (_, dg, _) => .num (if dg then 1 else 0)
          | none => .num (-1),
        orientation :=
          match K.topoAttrs with
          | some (_, _, ori) => .num (Orientation.from_topabs ori)
          | none => .num (-1),
        length :=
          match K.linearMass with
          | some m => .num m
          | none => .num (-1),
        error := (r.error || K.paramRange.isNone || K.precision.isNone ||
          (if r.num_face_objects < 2 then false else K.continuity.isNone) ||
          K.topoAttrs.isNone || K.linearMass.isNone) } := by
  obtain ⟨pr, pc, ct, ta, lm⟩ := K
  rcases pr with _ | ⟨a, b⟩ <;> rcases pc with _ | ⟨t, sp, sr⟩ <;>
    rcases ct with _ | g <;> rcases ta with _ | ⟨cl, dg, ori⟩ <;>
    rcases lm with _ | m <;> by_cases hn : r.num_face_objects < 2 <;>
    simp [BaseEdge.extract_base_features, BaseEdge.extract_parameter_features,
      BaseEdge.extract_precision_features, BaseEdge.extract_topology_features,
      BaseEdge.calculate_continuity, BaseEdge.calculate_length, hn]

/-- C6: the edge-role computation is a pure function of the number of
bounding faces — 0 ↦ free, 1 ↦ boundary, 2 ↦ interior, ≥ 3 ↦ non-manifold —
and every edge record produced by the extractor carries
`from_num_faces` of the length of its own bounding-face list in its
`edge_role` field. -/
theorem claim_C6 :
    EdgeRole.from_num_faces 0 = EdgeRole.FREE ∧
    EdgeRole.from_num_faces 1 = EdgeRole.BOUNDARY ∧
    EdgeRole.from_num_faces 2 = EdgeRole.INTERIOR ∧
    (∀ n : Nat, 3 ≤ n → EdgeRole.from_num_faces n = EdgeRole.NON_MANIFOLD) ∧
    (∀ (K : EdgeKernel) (eid : Nat) (tname : String) (cf : List Nat)
        (nfo : Nat) (r : EdgeRec),
        BaseEdge.extract_all_features K eid tname cf nfo = some r →
        r.edge_role = .num (EdgeRole.from_num_faces cf.length)) := by
  refine ⟨rfl, rfl, rfl, ?_, ?_⟩
  · intro n hn
    unfold EdgeRole.from_num_faces
    rw [if_neg (by omega), if_neg (by omega), if_neg (by omega)]
  · intro K eid tname cf nfo r h
    cases cf with
    | nil => simp [BaseEdge.extract_all_features, BaseEdge.init] at h
    | cons f0 rest =>
        simp only [BaseEdge.extract_all_features, BaseEdge.init,
          Option.map] at h
        cases h
        rw [base_edge_extract_eq]

/-- Witness for C6: five faces classify as non-manifold, and a concrete
extracted edge with two bounding faces carries the interior role. -/
theorem claim_C6_witness :
    EdgeRole.from_num_faces 5 = EdgeRole.NON_MANIFOLD ∧
    (BaseEdge.extract_all_features
        ⟨some (0, 1), some (2, true, true), some .c0,
         some (false, false, .fwd), some 3⟩ 5 "Line" [7, 8] 2).map
      EdgeRec.edge_role = some (.num (EdgeRole.from_num_faces 2)) := by
  refine ⟨claim_C6.2.2.2.1 5 (by norm_num), ?_⟩
  cases hE : BaseEdge.extract_all_features
      ⟨some (0, 1), some (2, true, true), some .c0,
       some (false, false, .fwd), some 3⟩ 5 "Line" [7, 8] 2 with
  | none => exact absurd hE (by decide)
  | some r =>
      simp only [Option.map]
      rw [claim_C6.2.2.2.2 _ 5 "Line" [7, 8] 2 r hE]
      rfl

/-- C10: constructing an edge record requires at least one bounding face:
on an empty bounding-face list the constructor raises (no record — in
particular no record with the free role — is ever produced), and on a
non-empty list the source node id is the first bounding face and the
destination node id is the last. -/
theorem claim_C10 :
    (∀ (K : EdgeKernel) (eid : Nat) (tname : String) (nfo : Nat),
        BaseEdge.extract_all_features K eid tname [] nfo = none) ∧
    (∀ (K : EdgeKernel) (eid : Nat) (tname : String) (f0 : Nat)
        (rest : List Nat) (nfo : Nat) (r : EdgeRec),
        BaseEdge.extract_all_features K eid tname (f0 :: rest) nfo = some r →
        r.src_node_id = f0 ∧
        r.dst_node_id = (f0 :: rest).getLast (List.cons_ne_nil f0 rest) ∧
        r.edge_role ≠ .num EdgeRole.FREE) := by
  have hrole : ∀ n : Nat, EdgeRole.from_num_faces (n + 1) ≠ EdgeRole.FREE := by
    intro n
    simp only [EdgeRole.from_num_faces, EdgeRole.FREE, EdgeRole.BOUNDARY,
      EdgeRole.INTERIOR, EdgeRole.NON_MANIFOLD]
    split
    · next h => exact absurd h (by omega)
    · split
      · norm_num
      · split
        · norm_num
        · norm_num
  constructor
  · intro K eid tname nfo
    simp [BaseEdge.extract_all_features, BaseEdge.init]
  · intro K eid tname f0 rest nfo r h
    simp only [BaseEdge.extract_all_features, BaseEdge.init, Option.map] at h
    cases h
    rw [base_edge_extract_eq]
    refine ⟨rfl, rfl, ?_⟩
    simp only [PyVal.num.injEq, ne_eq]
    intro hq
    exact hrole rest.length (by simpa using hq)

/-- Witness for C10: a concrete edge with bounding faces `[7, 8]` gets
source 7, destination 8 and a non-free role; the empty list yields no
record. -/
theorem claim_C10_witness :
    BaseEdge.extract_all_features
      ⟨some (0, 1), some (2, true, true), some .c0,
       some (false, false, .fwd), some 3⟩ 5 "Line" [] 0 = none ∧
    (BaseEdge.extract_all_features
        ⟨some (0, 1), some (2, true, true), some .c0,
         some (false, false, .fwd), some 3⟩ 5 "Line" [7, 8] 2).map
      (fun r => (r.src_node_id, r.dst_node_id)) = some (7, 8) := by
  constructor
  · exact claim_C10.1 _ 5 "Line" 0
  · cases hE : BaseEdge.extract_all_features
        ⟨some (0, 1), some (2, true, true), some .c0,
         some (false, false, .fwd), some 3⟩ 5 "Line" [7, 8] 2 with
    | none => exact absurd hE (by decide)
    | some r =>
        obtain ⟨h1, h2, _⟩ := claim_C10.2 _ 5 "Line" 7 [8] 2 r hE
        simp only [Option.map, h1, h2]
        rfl

/-- Characterization of the base-face extraction pipeline: each field is a
function of its own sub-step's kernel queries alone, every failure path
writes the scalar sentinel `-1` (also for the vector-valued `uv_bounds` and
`center`), and the error flag is the disjunction of the sub-step
failures. -/
theorem base_face_extract_eq (K : FaceKernel) (tname : String) (r : FaceRec) :
    BaseFace.extract_base_features K tname r =
      { r with
        type := tname,
        uv_bounds :=
          match K.uvBounds with
          | some (u0, u1, v0, v1) => .vec [u0, u1, v0, v1]
          | none => .num (-1),
        area :=
          match K.area with
          | some a => .num a
          | none => .num (-1),
        center :=
          match K.uvBounds, K.valueAt with
          | some _, some (x, y, z) => .vec [x, y, z]
          | _, _ => .num (-1),
        tolerance :=
          match K.tolerance with
          | some t => .num t
          | none => .num (-1),
        natural_restriction :=
          match K.topo with
          | some (nr, _) => .num (if nr then 1 else 0)
          | none => .num (-1),
        orientation :=
          match K.topo with
          | some (_, ori) => .num (Orientation.from_topabs ori)
          | none => .num (-1),
        error := (r.error || K.uvBounds.isNone || K.area.isNone ||
          K.valueAt.isNone || K.tolerance.isNone || K.topo.isNone) } := by
  obtain ⟨ub, va, ar, tl, tp, cx, hd⟩ := K
  rcases ub with _ | ⟨u0, u1, v0, v1⟩ <;> rcases va with _ | ⟨x, y, z⟩ <;>
    rcases ar with _ | a <;> rcases tl with _ | t <;>
    rcases tp with _ | ⟨nr, ori⟩ <;>
    simp [BaseFace.extract_base_features, BaseFace.extract_parameter_domain,
      BaseFace.extract_metric_features, BaseFace.calculate_uv_center,
      BaseFace.extract_precision_features, BaseFace.extract_topology_features]

/-- C2 (corrected): `get_feature_vector` has the declared width whenever it
returns at all, and it returns exactly when the vector-valued extraction
steps succeeded — the base tier's `uv_bounds` and `center` (and, for a
cylinder, its geometry tier); failures of scalar sub-steps never change
the width.  When a vector-valued step failed, the field holds the scalar
sentinel and `extend` raises `TypeError` instead of returning a vector. -/
theorem claim_C2 :
    (∀ (K : FaceKernel) (fid : Nat) (tname : String) (v : List PyVal),
        OtherSurface.get_feature_vector
            (OtherSurface.extract_all_features K fid tname) = some v →
        v.length = OtherSurface.declaredWidth) ∧
    (∀ (K : FaceKernel) (fid : Nat) (v : List PyVal),
        CylindricalFace.get_feature_vector
            (CylindricalFace.extract_all_features K fid) = some v →
        v.length = CylindricalFace.declaredWidth) ∧
    (∀ (K : FaceKernel) (fid : Nat) (tname : String),
        K.uvBounds.isSome → K.valueAt.isSome →
        (OtherSurface.get_feature_vector
            (OtherSurface.extract_all_features K fid tname)).isSome) ∧
    (∀ (K : FaceKernel) (fid : Nat),
        K.uvBounds.isSome → K.valueAt.isSome → K.cylAxisRadius.isSome →
        (CylindricalFace.get_feature_vector
            (CylindricalFace.extract_all_features K fid)).isSome) := by
  refine ⟨?_, ?_, ?_, ?_⟩
  · intro K fid tname v h
    obtain ⟨ub, va, ar, tl, tp, cx, hd⟩ := K
    rcases ub with _ | ⟨u0, u1, v0, v1⟩ <;> rcases va with _ | ⟨x, y, z⟩ <;>
      simp [OtherSurface.get_feature_vector, OtherSurface.extract_all_features,
        base_face_extract_eq, BaseFace.get_feature_vector, pyExtend, pyAppend,
        OtherSurface.declaredWidth, BaseFace.baseFieldWidths] at h ⊢ <;>
      (rw [← h]; rfl)
  · intro K fid v h
    obtain ⟨ub, va, ar, tl, tp, cx, hd⟩ := K
    rcases ub with _ | ⟨u0, u1, v0, v1⟩ <;> rcases va with _ | ⟨x, y, z⟩ <;>
      rcases cx with _ | ⟨⟨ax, ay, az⟩, rad⟩ <;>
      simp [CylindricalFace.get_feature_vector,
        CylindricalFace.extract_all_features,
        CylindricalFace.extract_geometry_features, base_face_extract_eq,
        BaseFace.get_feature_vector, pyExtend, pyAppend,
        CylindricalFace.declaredWidth, OtherSurface.declaredWidth,
        BaseFace.baseFieldWidths, CylindricalFace.specificFieldWidths] at h ⊢ <;>
      (rw [← h]; rfl)
  · intro K fid tname h1 h2
    obtain ⟨ub, va, ar, tl, tp, cx, hd⟩ := K
    rcases ub with _ | ⟨u0, u1, v0, v1⟩ <;> rcases va with _ | ⟨x, y, z⟩ <;>
      simp_all [OtherSurface.get_feature_vector,
        OtherSurface.extract_all_features, base_face_extract_eq,
        BaseFace.get_feature_vector, pyExtend, pyAppend]
  · intro K fid h1 h2 h3
    obtain ⟨ub, va, ar, tl, tp, cx, hd⟩ := K
    rcases ub with _ | ⟨u0, u1, v0, v1⟩ <;> rcases va with _ | ⟨x, y, z⟩ <;>
      rcases cx with _ | ⟨⟨ax, ay, az⟩, rad⟩ <;>
      simp_all [CylindricalFace.get_feature_vector,
        CylindricalFace.extract_all_features,
        CylindricalFace.extract_geometry_features, base_face_extract_eq,
        BaseFace.get_feature_vector, pyExtend, pyAppend]

/-- Counterexample for C2 as stated: when the UV-bound query raises, the
sentinel is the scalar `-1` and `get_feature_vector` raises `TypeError`
(returns no vector at all) — likewise for a cylinder whose geometry tier
failed, even with an intact base tier. -/
theorem claim_C2_counterexample :
    OtherSurface.get_feature_vector
        (OtherSurface.extract_all_features
          ⟨none, some (4, 5, 6), some 7, some 8, some (true, .fwd),
           none, none⟩ 0 "OtherSurface") = none ∧
    CylindricalFace.get_feature_vector
        (CylindricalFace.extract_all_features
          ⟨some (0, 1, 2, 3), some (4, 5, 6), some 7, some 8,
           some (true, .fwd), none, none⟩ 0) = none := by
  constructor
  · rfl
  · rfl

/-- Witness for C2 at a concrete kernel: a cylinder whose area and
tolerance queries raised still yields a width-18 vector, and the
fully-successful base tier of an unrecognized surface yields width 11. -/
theorem claim_C2_witness :
    (OtherSurface.get_feature_vector
        (OtherSurface.extract_all_features
          ⟨some (0, 1, 2, 3), some (4, 5, 6), some 7, some 8,
           some (true, .fwd), none, none⟩ 0 "OtherSurface")).isSome ∧
    (CylindricalFace.get_feature_vector
        (CylindricalFace.extract_all_features
          ⟨some (0, 1, 2, 3), some (4, 5, 6), none, none,
           some (true, .fwd), some ((1, 0, 0), 5), none⟩ 9)).map
      List.length = some CylindricalFace.declaredWidth := by
  constructor
  · exact claim_C2.2.2.1
      ⟨some (0, 1, 2, 3), some (4, 5, 6), some 7, some 8,
       some (true, .fwd), none, none⟩ 0 "OtherSurface" (by decide) (by decide)
  · cases hE : CylindricalFace.get_feature_vector
        (CylindricalFace.extract_all_features
          ⟨some (0, 1, 2, 3), some (4, 5, 6), none, none,
           some (true, .fwd), some ((1, 0, 0), 5), none⟩ 9) with
    | none => exact absurd hE (by decide)
    | some v =>
        simp only [Option.map]
        rw [claim_C2.2.1
          ⟨some (0, 1, 2, 3), some (4, 5, 6), none, none,
           some (true, .fwd), some ((1, 0, 0), 5), none⟩ 9 v hE]

/-- C3 (corrected): the base-feature sub-steps run independently — failing
exactly one sub-step's kernel queries yields the same record as the fully
successful run except that the failed sub-step's fields hold the sentinel
`-1` (the *scalar* `-1`, also for vector-valued fields such as the 3D
center) and the error flag is raised.  Stated for the face sub-steps
(area, center, tolerance/precision, topology) and the edge sub-steps
(parameter domain, precision, topology attributes, length, continuity). -/
theorem claim_C3 :
    (∀ (u0 u1 v0 v1 x y z ar tl : ℚ) (nr : Bool) (ori : TopAbsOrient)
        (cx : Option ((ℚ × ℚ × ℚ) × ℚ)) (hd : Option ℚ)
        (tname : String) (r : FaceRec),
      BaseFace.extract_base_features
          ⟨some (u0, u1, v0, v1), some (x, y, z), none, some tl,
           some (nr, ori), cx, hd⟩ tname r =
        { BaseFace.extract_base_features
            ⟨some (u0, u1, v0, v1), some (x, y, z), some ar, some tl,
             some (nr, ori), cx, hd⟩ tname r with
          area := .num (-1), error := true } ∧
      BaseFace.extract_base_features
          ⟨some (u0, u1, v0, v1), none, some ar, some tl,
           some (nr, ori), cx, hd⟩ tname r =
        { BaseFace.extract_base_features
            ⟨some (u0, u1, v0, v1), some (x, y, z), some ar, some tl,
             some (nr, ori), cx, hd⟩ tname r with
          center := .num (-1), error := true } ∧
      BaseFace.extract_base_features
          ⟨some (u0, u1, v0, v1), some (x, y, z), some ar, none,
           some (nr, ori), cx, hd⟩ tname r =
        { BaseFace.extract_base_features
            ⟨some (u0, u1, v0, v1), some (x, y, z), some ar, some tl,
             some (nr, ori), cx, hd⟩ tname r with
          tolerance := .num (-1), error := true } ∧
      BaseFace.extract_base_features
          ⟨some (u0, u1, v0, v1), some (x, y, z), some ar, some tl,
           none, cx, hd⟩ tname r =
        { BaseFace.extract_base_features
            ⟨some (u0, u1, v0, v1), some (x, y, z), some ar, some tl,
             some (nr, ori), cx, hd⟩ tname r with
          natural_restriction := .num (-1), orientation := .num (-1),
          error := true }) ∧
    (∀ (a b t m : ℚ) (sp sr cl dg : Bool) (g : GeomAbsCont)
        (ori : TopAbsOrient) (tname : String) (r : EdgeRec),
      BaseEdge.extract_base_features
          ⟨none, some (t, sp, sr), some g, some (cl, dg, ori), some m⟩
          tname r =
        { BaseEdge.extract_base_features
            ⟨some (a, b), some (t, sp, sr), some g, some (cl, dg, ori),
             some m⟩ tname r with
          parameter_range := .num (-1), error := true } ∧
      BaseEdge.extract_base_features
          ⟨some (a, b), none, some g, some (cl, dg, ori), some m⟩ tname r =
        { BaseEdge.extract_base_features
            ⟨some (a, b), some (t, sp, sr), some g, some (cl, dg, ori),
             some m⟩ tname r with
          tolerance := .num (-1), same_parameter := .num (-1),
          same_range := .num (-1), error := true } ∧
      BaseEdge.extract_base_features
          ⟨some (a, b), some (t, sp, sr), some g, none, some m⟩ tname r =
        { BaseEdge.extract_base_features
            ⟨some (a, b), some (t, sp, sr), some g, some (cl, dg, ori),
             some m⟩ tname r with
          is_closed := .num (-1), is_degenerated := .num (-1),
          orientation := .num (-1), error := true } ∧
      BaseEdge.extract_base_features
          ⟨some (a, b), some (t, sp, sr), some g, some (cl, dg, ori), none⟩
          tname r =
        { BaseEdge.extract_base_features
            ⟨some (a, b), some (t, sp, sr), some g, some (cl, dg, ori),
             some m⟩ tname r with
          length := .num (-1), error := true } ∧
      (2 ≤ r.num_face_objects →
        BaseEdge.extract_base_features
            ⟨some (a, b), some (t, sp, sr), none, some (cl, dg, ori),
             some m⟩ tname r =
          { BaseEdge.extract_base_features
              ⟨some (a, b), some (t, sp, sr), some g, some (cl, dg, ori),
               some m⟩ tname r with
            continuity := .num Continuity.NONE, error := true })) := by
  constructor
  · intro u0 u1 v0 v1 x y z ar tl nr ori cx hd tname r
    refine ⟨?_, ?_, ?_, ?_⟩ <;>
      simp [base_face_extract_eq]
  · intro a b t m sp sr cl dg g ori tname r
    refine ⟨?_, ?_, ?_, ?_, ?_⟩
    · simp [base_edge_extract_eq]
    · simp [base_edge_extract_eq]
    · simp [base_edge_extract_eq]
    · simp [base_edge_extract_eq]
    · intro hn
      simp [base_edge_extract_eq]
      exact Or.inr hn

/-- Counterexample for C3 as stated: when the mid-UV evaluation raises (the
measure sub-step's center computation fails, every other sub-step
succeeds), the 3D-center field holds the *scalar* `-1`, not a 3-vector of
`-1`; the error flag is raised and the other sub-steps are unaffected. -/
theorem claim_C3_counterexample :
    (BaseFace.extract_base_features
        ⟨some (0, 1, 2, 3), none, some 7, some 8, some (true, .fwd),
         none, none⟩ "Plane" (FaceRec.init 0)).center = .num (-1) ∧
    (BaseFace.extract_base_features
        ⟨some (0, 1, 2, 3), none, some 7, some 8, some (true, .fwd),
         none, none⟩ "Plane" (FaceRec.init 0)).center ≠ .vec [-1, -1, -1] ∧
    (BaseFace.extract_base_features
        ⟨some (0, 1, 2, 3), none, some 7, some 8, some (true, .fwd),
         none, none⟩ "Plane" (FaceRec.init 0)).uv_bounds = .vec [0, 1, 2, 3] ∧
    (BaseFace.extract_base_features
        ⟨some (0, 1, 2, 3), none, some 7, some 8, some (true, .fwd),
         none, none⟩ "Plane" (FaceRec.init 0)).area = .num 7 ∧
    (BaseFace.extract_base_features
        ⟨some (0, 1, 2, 3), none, some 7, some 8, some (true, .fwd),
         none, none⟩ "Plane" (FaceRec.init 0)).error = true := by
  refine ⟨rfl, by decide, rfl, rfl, rfl⟩

/-- Witness for C3 at concrete inputs: failing only the area query, and —
for an edge record with two attached face objects — failing only the
continuity query. -/
theorem claim_C3_witness :
    BaseFace.extract_base_features
        ⟨some (0, 1, 2, 3), some (4, 5, 6), none, some 8,
         some (true, .fwd), none, none⟩ "Plane" (FaceRec.init 0) =
      { BaseFace.extract_base_features
          ⟨some (0, 1, 2, 3), some (4, 5, 6), some 7, some 8,
           some (true, .fwd), none, none⟩ "Plane" (FaceRec.init 0) with
        area := .num (-1), error := true } ∧
    BaseEdge.extract_base_features
        ⟨some (0, 1), some (2, true, true), none,
         some (false, false, .fwd), some 3⟩ "Line"
        ⟨0, "", [7, 8], 7, 8, 2, .num 0, .num 0, .num 0, .num 0, .num 0,
         .num 0, .num 0, .num 0, .num 0, .num 0, false⟩ =
      { BaseEdge.extract_base_features
          ⟨some (0, 1), some (2, true, true), some .c0,
           some (false, false, .fwd), some 3⟩ "Line"
          ⟨0, "", [7, 8], 7, 8, 2, .num 0, .num 0, .num 0, .num 0, .num 0,
           .num 0, .num 0, .num 0, .num 0, .num 0, false⟩ with
        continuity := .num Continuity.NONE, error := true } := by
  constructor
  · exact (claim_C3.1 0 1 2 3 4 5 6 7 8 true .fwd none none "Plane"
      (FaceRec.init 0)).1
  · exact (claim_C3.2 0 1 2 3 true true false false GeomAbsCont.c0
      TopAbsOrient.fwd "Line"
      ⟨0, "", [7, 8], 7, 8, 2, .num 0, .num 0, .num 0, .num 0, .num 0,
       .num 0, .num 0, .num 0, .num 0, .num 0, false⟩).2.2.2.2 (by decide)

/-- The emitted first-occurrence list has pairwise distinct keys, avoids
`seen`, covers every unseen input key, and only contains input entities. -/
theorem firstOccurrences_spec (l : List LoopEntity) (seen : List Nat) :
    ((firstOccurrences l seen).map (fun f => f.key)).Nodup ∧
    (∀ g ∈ firstOccurrences l seen, g.key ∉ seen) ∧
    (∀ f ∈ l, f.key ∉ seen → ∃ g ∈ firstOccurrences l seen, g.key = f.key) ∧
    (∀ g ∈ firstOccurrences l seen, g ∈ l) := by
  induction l generalizing seen with
  | nil => simp [firstOccurrences]
  | cons f rest ih =>
      by_cases hk : f.key ∈ seen
      · rw [firstOccurrences, if_pos hk]
        obtain ⟨ih1, ih2, ih3, ih4⟩ := ih seen
        refine ⟨ih1, ih2, ?_, fun g hg => List.mem_cons_of_mem _ (ih4 g hg)⟩
        intro x hx hxs
        rcases List.mem_cons.mp hx with rfl | hx'
        · exact absurd hk hxs
        · exact ih3 x hx' hxs
      · rw [firstOccurrences, if_neg hk]
        obtain ⟨ih1, ih2, ih3, ih4⟩ := ih (f.key :: seen)
        refine ⟨?_, ?_, ?_, ?_⟩
        · simp only [List.map_cons, List.nodup_cons]
          refine ⟨?_, ih1⟩
          intro hmem
          obtain ⟨g, hg, hgk⟩ := List.mem_map.mp hmem
          exact (ih2 g hg) (by simp [hgk])
        · intro g hg
          rcases List.mem_cons.mp hg with rfl | hg'
          · exact hk
          · intro hs
            exact (ih2 g hg') (List.mem_cons_of_mem _ hs)
        · intro x hx hxs
          rcases List.mem_cons.mp hx with heq | hx'
          · exact ⟨f, List.mem_cons_self _ _, by rw [heq]⟩
          · by_cases hxf : x.key = f.key
            · exact ⟨f, List.mem_cons_self _ _, hxf.symm⟩
            · obtain ⟨g, hg, hgk⟩ :=
                ih3 x hx' (by simp [hxs, hxf])
              exact ⟨g, List.mem_cons_of_mem _ hg, hgk⟩
        · intro g hg
          rcases List.mem_cons.mp hg with rfl | hg'
          · exact List.mem_cons_self _ _
          · exact List.mem_cons_of_mem _ (ih4 g hg')

/-- On a traversal with no unknown-kind and no errored face, the face loop
terminates and emits exactly the first occurrences. -/
theorem faces_go_clean (l : List LoopEntity) (p : List Nat)
    (acc : List LoopEntity)
    (h : ∀ f ∈ l, f.type ≠ "Unknown" ∧ f.error = false) :
    extract_faces_objects_go l p acc = some (acc ++ firstOccurrences l p) := by
  induction l generalizing p acc with
  | nil => simp [extract_faces_objects_go, firstOccurrences]
  | cons f rest ih =>
      obtain ⟨hft, hfe⟩ := h f (List.mem_cons_self _ _)
      have hrest : ∀ g ∈ rest, g.type ≠ "Unknown" ∧ g.error = false :=
        fun g hg => h g (List.mem_cons_of_mem _ hg)
      by_cases hk : f.key ∈ p
      · rw [extract_faces_objects_go, if_pos hk, firstOccurrences, if_pos hk]
        exact ih p acc hrest
      · rw [extract_faces_objects_go, if_neg hk, if_neg hft,
          firstOccurrences, if_neg hk]
        rw [if_neg (by simp [hfe])]
        rw [ih (f.key :: p) (acc ++ [f]) hrest]
        simp

/-- A face whose classification fell back to unknown or whose error flag is
raised makes the face loop diverge (the `continue` skips `Next()`). -/
theorem faces_go_diverge (l : List LoopEntity) (p : List Nat)
    (acc : List LoopEntity) (hnd : (l.map (fun f => f.key)).Nodup)
    (hbad : ∃ f ∈ l, (f.type = "Unknown" ∨ f.error = true) ∧ f.key ∉ p) :
    extract_faces_objects_go l p acc = none := by
  induction l generalizing p acc with
  | nil => simp at hbad
  | cons f rest ih =>
      obtain ⟨bf, hbm, hbb, hbp⟩ := hbad
      simp only [List.map_cons, List.nodup_cons] at hnd
      rcases List.mem_cons.mp hbm with rfl | hbm'
      · rw [extract_faces_objects_go, if_neg hbp]
        by_cases hT : bf.type = "Unknown"
        · rw [if_pos hT]
        · have hE : bf.error = true := hbb.resolve_left hT
          rw [if_neg hT, if_pos hE]
      · by_cases hk : f.key ∈ p
        · rw [extract_faces_objects_go, if_pos hk]
          exact ih p acc hnd.2 ⟨bf, hbm', hbb, hbp⟩
        · by_cases hT : f.type = "Unknown"
          · rw [extract_faces_objects_go, if_neg hk, if_pos hT]
          · by_cases hE : f.error = true
            · rw [extract_faces_objects_go, if_neg hk, if_neg hT, if_pos hE]
            · rw [extract_faces_objects_go, if_neg hk, if_neg hT,
                if_neg hE]
              refine ih (f.key :: p) (acc ++ [f]) hnd.2 ⟨bf, hbm', hbb, ?_⟩
              intro hmem
              rcases List.mem_cons.mp hmem with heq | hmem'
              · exact hnd.1 (heq ▸ List.mem_map_of_mem (fun f => f.key) hbm')
              · exact hbp hmem'

/-- On a traversal with no unknown-kind edge, the edge loop terminates and
emits exactly the first occurrences (errored edges included). -/
theorem edges_go_clean (l : List LoopEntity) (p : List Nat)
    (acc : List LoopEntity) (h : ∀ e ∈ l, e.type ≠ "Unknown") :
    extract_edges_objects_go l p acc = some (acc ++ firstOccurrences l p) := by
  induction l generalizing p acc with
  | nil => simp [extract_edges_objects_go, firstOccurrences]
  | cons e rest ih =>
      have het := h e (List.mem_cons_self _ _)
      have hrest : ∀ g ∈ rest, g.type ≠ "Unknown" :=
        fun g hg => h g (List.mem_cons_of_mem _ hg)
      by_cases hk : e.key ∈ p
      · rw [extract_edges_objects_go, if_pos hk, firstOccurrences, if_pos hk]
        exact ih p acc hrest
      · rw [extract_edges_objects_go, if_neg hk, if_neg het,
          firstOccurrences, if_neg hk]
        rw [ih (e.key :: p) (acc ++ [e]) hrest]
        simp

/-- An unknown-kind edge makes the edge loop diverge. -/
theorem edges_go_diverge (l : List LoopEntity) (p : List Nat)
    (acc : List LoopEntity) (hnd : (l.map (fun f => f.key)).Nodup)
    (hbad : ∃ e ∈ l, e.type = "Unknown" ∧ e.key ∉ p) :
    extract_edges_objects_go l p acc = none := by
  induction l generalizing p acc with
  | nil => simp at hbad
  | cons e rest ih =>
      obtain ⟨be, hbm, hbb, hbp⟩ := hbad
      simp only [List.map_cons, List.nodup_cons] at hnd
      rcases List.mem_cons.mp hbm with rfl | hbm'
      · rw [extract_edges_objects_go, if_neg hbp, if_pos hbb]
      · by_cases hk : e.key ∈ p
        · rw [extract_edges_objects_go, if_pos hk]
          exact ih p acc hnd.2 ⟨be, hbm', hbb, hbp⟩
        · by_cases hT : e.type = "Unknown"
          · rw [extract_edges_objects_go, if_neg hk, if_pos hT]
          · rw [extract_edges_objects_go, if_neg hk, if_neg hT]
            refine ih (e.key :: p) (acc ++ [e]) hnd.2 ⟨be, hbm', hbb, ?_⟩
            intro hmem
            rcases List.mem_cons.mp hmem with heq | hmem'
            · exact hnd.1 (heq ▸ List.mem_map_of_mem (fun f => f.key) hbm')
            · exact hbp hmem'

/-- The fuelled face loop agrees with the denotation: a successful
denotation is reached with fuel `length + 1`, and a diverging denotation
exhausts every amount of fuel. -/
theorem faces_fuel_correspondence :
    (∀ (l : List LoopEntity) (p : List Nat) (acc res : List LoopEntity),
        extract_faces_objects_go l p acc = some res →
        extract_faces_objects_fuel (l.length + 1) l p acc = some res) ∧
    (∀ (n : Nat) (l : List LoopEntity) (p : List Nat) (acc : List LoopEntity),
        extract_faces_objects_go l p acc = none →
        extract_faces_objects_fuel n l p acc = none) := by
  constructor
  · intro l
    induction l with
    | nil =>
        intro p acc res h
        rw [extract_faces_objects_go] at h
        rw [extract_faces_objects_fuel]
        exact h
    | cons f rest ih =>
        intro p acc res h
        rw [extract_faces_objects_go] at h
        rw [List.length_cons, extract_faces_objects_fuel]
        by_cases hk : f.key ∈ p
        · rw [if_pos hk] at h
          rw [if_pos hk]
          exact ih p acc res h
        · rw [if_neg hk] at h
          rw [if_neg hk]
          by_cases hT : f.type = "Unknown"
          · rw [if_pos hT] at h; cases h
          · rw [if_neg hT] at h
            rw [if_neg hT]
            by_cases hE : f.error = true
            · rw [if_pos hE] at h; cases h
            · rw [if_neg hE] at h
              rw [if_neg hE]
              exact ih (f.key :: p) (acc ++ [f]) res h
  · intro n
    induction n with
    | zero => intro l p acc _; rfl
    | succ n ih =>
        intro l p acc h
        cases l with
        | nil => rw [extract_faces_objects_go] at h; cases h
        | cons f rest =>
            rw [extract_faces_objects_go] at h
            rw [extract_faces_objects_fuel]
            by_cases hk : f.key ∈ p
            · rw [if_pos hk] at h
              rw [if_pos hk]
              exact ih rest p acc h
            · rw [if_neg hk] at h
              rw [if_neg hk]
              by_cases hT : f.type = "Unknown"
              · rw [if_pos hT]
                exact ih (f :: rest) p acc (by rw [extract_faces_objects_go,
                  if_neg hk, if_pos hT])
              · rw [if_neg hT] at h
                rw [if_neg hT]
                by_cases hE : f.error = true
                · rw [if_pos hE]
                  exact ih (f :: rest) p acc (by rw [extract_faces_objects_go,
                    if_neg hk, if_neg hT, if_pos hE])
                · rw [if_neg hE] at h
                  rw [if_neg hE]
                  exact ih rest (f.key :: p) (acc ++ [f]) h

/-- The fuelled edge loop agrees with the denotation in the same way. -/
theorem edges_fuel_correspondence :
    (∀ (l : List LoopEntity) (p : List Nat) (acc res : List LoopEntity),
        extract_edges_objects_go l p acc = some res →
        extract_edges_objects_fuel (l.length + 1) l p acc = some res) ∧
    (∀ (n : Nat) (l : List LoopEntity) (p : List Nat) (acc : List LoopEntity),
        extract_edges_objects_go l p acc = none →
        extract_edges_objects_fuel n l p acc = none) := by
  constructor
  · intro l
    induction l with
    | nil =>
        intro p acc res h
        rw [extract_edges_objects_go] at h
        rw [extract_edges_objects_fuel]
        exact h
    | cons e rest ih =>
        intro p acc res h
        rw [extract_edges_objects_go] at h
        rw [List.length_cons, extract_edges_objects_fuel]
        by_cases hk : e.key ∈ p
        · rw [if_pos hk] at h
          rw [if_pos hk]
          exact ih p acc res h
        · rw [if_neg hk] at h
          rw [if_neg hk]
          by_cases hT : e.type = "Unknown"
          · rw [if_pos hT] at h; cases h
          · rw [if_neg hT] at h
            rw [if_neg hT]
            exact ih (e.key :: p) (acc ++ [e]) res h
  · intro n
    induction n with
    | zero => intro l p acc _; rfl
    | succ n ih =>
        intro l p acc h
        cases l with
        | nil => rw [extract_edges_objects_go] at h; cases h
        | cons e rest =>
            rw [extract_edges_objects_go] at h
            rw [extract_edges_objects_fuel]
            by_cases hk : e.key ∈ p
            · rw [if_pos hk] at h
              rw [if_pos hk]
              exact ih rest p acc h
            · rw [if_neg hk] at h
              rw [if_neg hk]
              by_cases hT : e.type = "Unknown"
              · rw [if_pos hT]
                exact ih (e :: rest) p acc (by rw [extract_edges_objects_go,
                  if_neg hk, if_pos hT])
              · rw [if_neg hT] at h
                rw [if_neg hT]
                exact ih rest (e.key :: p) (acc ++ [e]) h

/-- C1 (corrected): on a traversal where every face classifies to a known
kind with a clear error flag and every edge classifies to a known kind,
both extraction loops emit exactly one object per distinct underlying
entity, in first-discovery order.  But the claim's fail-soft emission is
false: a face with unknown kind or raised error flag, and an edge with
unknown kind, are not emitted — the `continue` that was meant to discard
them skips `explorer.Next()`, so the loop never terminates (denotation
`none`). -/
theorem claim_C1 :
    (∀ faces : List LoopEntity,
        (∀ f ∈ faces, f.type ≠ "Unknown" ∧ f.error = false) →
        extract_faces_objects faces = some (firstOccurrences faces []) ∧
        ((firstOccurrences faces []).map (fun f => f.key)).Nodup ∧
        (∀ f ∈ faces, ∃ g ∈ firstOccurrences faces [], g.key = f.key)) ∧
    (∀ faces : List LoopEntity,
        (faces.map (fun f => f.key)).Nodup →
        (∃ f ∈ faces, f.type = "Unknown" ∨ f.error = true) →
        extract_faces_objects faces = none) ∧
    (∀ edges : List LoopEntity,
        (∀ e ∈ edges, e.type ≠ "Unknown") →
        extract_edges_objects edges = some (firstOccurrences edges []) ∧
        ((firstOccurrences edges []).map (fun f => f.key)).Nodup ∧
        (∀ e ∈ edges, ∃ g ∈ firstOccurrences edges [], g.key = e.key)) ∧
    (∀ edges : List LoopEntity,
        (edges.map (fun f => f.key)).Nodup →
        (∃ e ∈ edges, e.type = "Unknown") →
        extract_edges_objects edges = none) := by
  refine ⟨?_, ?_, ?_, ?_⟩
  · intro faces h
    obtain ⟨h1, _, h3, _⟩ := firstOccurrences_spec faces []
    refine ⟨?_, h1, fun f hf => h3 f hf (by simp)⟩
    rw [extract_faces_objects, faces_go_clean faces [] [] h]
    simp
  · intro faces hnd ⟨f, hf, hb⟩
    exact faces_go_diverge faces [] [] hnd ⟨f, hf, hb, by simp⟩
  · intro edges h
    obtain ⟨h1, _, h3, _⟩ := firstOccurrences_spec edges []
    refine ⟨?_, h1, fun e he => h3 e he (by simp)⟩
    rw [extract_edges_objects, edges_go_clean edges [] [] h]
    simp
  · intro edges hnd ⟨e, he, hb⟩
    exact edges_go_diverge edges [] [] hnd ⟨e, he, hb, by simp⟩

/-- Counterexample for C1 as stated: a single discovered face with a raised
error flag, a single face with unknown kind, and a single edge with
unknown kind each make their loop diverge — no list containing them is
ever returned, so they are not "emitted downstream". -/
theorem claim_C1_counterexample :
    extract_faces_objects [⟨0, "Plane", true⟩] = none ∧
    extract_faces_objects [⟨1, "Unknown", false⟩] = none ∧
    extract_edges_objects [⟨2, "Unknown", false⟩] = none := by
  exact ⟨rfl, rfl, rfl⟩

/-- Witness for C1 on a concrete traversal: a face revisited once is
emitted exactly once, and an edge with a raised error flag (known kind) is
still emitted. -/
theorem claim_C1_witness :
    extract_faces_objects
        [⟨0, "Plane", false⟩, ⟨0, "Plane", false⟩, ⟨1, "Cylinder", false⟩] =
      some (firstOccurrences
        [⟨0, "Plane", false⟩, ⟨0, "Plane", false⟩, ⟨1, "Cylinder", false⟩] []) ∧
    extract_edges_objects [⟨4, "Line", true⟩] =
      some (firstOccurrences [⟨4, "Line", true⟩] []) := by
  exact ⟨(claim_C1.1 _ (by decide)).1, (claim_C1.2.2.1 _ (by decide)).1⟩

/-- C5 (corrected): the connectivity resolver truncates to the first and
last entries of the ancestor map's face list: the returned list has length
`min k 2` for an edge bounded by `k` faces (so it equals the full list only
for `k ≤ 2`), and an edge absent from the map yields the empty list. -/
theorem claim_C5 :
    (∀ (edge_face_map : List (Nat × List Nat)) (e : Nat),
        edge_face_map.lookup e = none →
        get_connected_faces_from_edge edge_face_map e = []) ∧
    (∀ (edge_face_map : List (Nat × List Nat)) (e : Nat)
        (face_list : List Nat),
        edge_face_map.lookup e = some face_list →
        (get_connected_faces_from_edge edge_face_map e).length =
          min face_list.length 2 ∧
        (face_list.length ≤ 2 →
          get_connected_faces_from_edge edge_face_map e = face_list) ∧
        (2 ≤ face_list.length →
          get_connected_faces_from_edge edge_face_map e =
            [face_list.headD 0, face_list.getLastD 0])) := by
  constructor
  · intro emap e h
    rw [get_connected_faces_from_edge, h]
  · intro emap e fl h
    rw [get_connected_faces_from_edge, h]
    match fl with
    | [] => simp
    | [a] => simp
    | a :: b :: rest =>
        refine ⟨?_, ?_, ?_⟩
        · simp
        · intro hle
          have hr : rest = [] := by
            simp only [List.length_cons] at hle
            exact List.length_eq_zero.mp (by omega)
          subst hr
          simp
        · intro _
          simp

/-- Counterexample for C5 as stated: an edge bounded by three faces
`[1, 2, 3]` in the ancestor map yields `[1, 3]` — length 2, not 3, and the
middle face is dropped. -/
theorem claim_C5_counterexample :
    List.lookup 0 [(0, [1, 2, 3])] = some [1, 2, 3] ∧
    get_connected_faces_from_edge [(0, [1, 2, 3])] 0 = [1, 3] ∧
    get_connected_faces_from_edge [(0, [1, 2, 3])] 0 ≠ [1, 2, 3] := by
  exact ⟨rfl, rfl, by decide⟩

/-- Witness for C5: a two-face edge is returned in full, and a three-face
edge is truncated to first and last. -/
theorem claim_C5_witness :
    get_connected_faces_from_edge [(7, [4, 9])] 7 = [4, 9] ∧
    get_connected_faces_from_edge [(0, [1, 2, 3])] 0 =
      [List.headD [1, 2, 3] 0, List.getLastD [1, 2, 3] 0] := by
  constructor
  · exact ((claim_C5.2 [(7, [4, 9])] 7 [4, 9] rfl).2.1 (by norm_num))
  · exact ((claim_C5.2 [(0, [1, 2, 3])] 0 [1, 2, 3] rfl).2.2 (by norm_num))

/-- C8: `add_edge` is atomic: the node map is never touched; the edge is
appended exactly when both endpoint ids are present, and on a missing
endpoint the whole graph is unchanged and the warning diagnostic is
emitted. -/
theorem claim_C8 :
    ∀ (g : HetGraph) (e : GEdge),
      (g.add_edge e).1.nodes = g.nodes ∧
      ((g.nodes.lookup e.src_node_id).isSome ∧
          (g.nodes.lookup e.dst_node_id).isSome →
        g.add_edge e = ({ g with edges := g.edges ++ [e] }, false)) ∧
      (¬((g.nodes.lookup e.src_node_id).isSome ∧
          (g.nodes.lookup e.dst_node_id).isSome) →
        g.add_edge e = (g, true)) := by
  intro g e
  by_cases h : (g.nodes.lookup e.src_node_id).isSome ∧
      (g.nodes.lookup e.dst_node_id).isSome
  · rw [HetGraph.add_edge, if_pos h]
    exact ⟨rfl, fun _ => rfl, fun hc => absurd h hc⟩
  · rw [HetGraph.add_edge, if_neg h]
    exact ⟨rfl, fun hc => absurd hc h, fun _ => rfl⟩

/-- Witness for C8: a one-node graph accepts a self-loop edge on the
present id 0 and rejects, unchanged, an edge to the absent id 1. -/
theorem claim_C8_witness :
    HetGraph.add_edge ⟨[(0, ⟨0, "Plane", []⟩)], []⟩ ⟨0, 0, "Line", []⟩ =
      ({ (⟨[(0, ⟨0, "Plane", []⟩)], []⟩ : HetGraph) with
          edges := [] ++ [⟨0, 0, "Line", []⟩] }, false) ∧
    HetGraph.add_edge ⟨[(0, ⟨0, "Plane", []⟩)], []⟩ ⟨0, 1, "Line", []⟩ =
      (⟨[(0, ⟨0, "Plane", []⟩)], []⟩, true) := by
  constructor
  · exact (claim_C8 ⟨[(0, ⟨0, "Plane", []⟩)], []⟩ ⟨0, 0, "Line", []⟩).2.1
      (by decide)
  · exact (claim_C8 ⟨[(0, ⟨0, "Plane", []⟩)], []⟩ ⟨0, 1, "Line", []⟩).2.2
      (by decide)

theorem lookup_mem {l : List (Nat × GNode)} {k : Nat} {v : GNode}
    (h : l.lookup k = some v) : (k, v) ∈ l := by
  obtain ⟨l1, l2, rfl, -⟩ := List.lookup_eq_some_iff.mp h
  simp

/-- Under well-formedness, the ids of the node values are pairwise
distinct. -/
theorem nodeValues_ids_nodup (g : HetGraph) (hwf : g.WF) :
    (g.nodeValues.map (fun n => n.id)).Nodup := by
  have heq : g.nodeValues.map (fun n => n.id) = g.nodes.map (fun p => p.1) := by
    rw [HetGraph.nodeValues, List.map_map]
    exact List.map_congr_left (fun p hp => hwf.2.1 p hp)
  rw [heq]
  exact hwf.1

/-- C9 (assembly well-formedness): faces are partitioned by kind with
0-based local indices in encounter order — the local index of every node
recovers that node inside its kind group and is below the group size — and
for every canonical relation triple the source-index, destination-index
and edge-feature arrays have equal length with every local index strictly
below the corresponding node count. -/
theorem claim_C9 (g : HetGraph) (hwf : g.WF) :
    (∀ tr : String × String × String,
        (g.relSrcIds tr).length = (g.relFeats tr).length ∧
        (g.relDstIds tr).length = (g.relFeats tr).length) ∧
    (∀ tr : String × String × String,
        ∀ i ∈ g.relSrcIds tr, i < (g.nodesOfType tr.1).length) ∧
    (∀ tr : String × String × String,
        ∀ i ∈ g.relDstIds tr, i < (g.nodesOfType tr.2.2).length) ∧
    (∀ n ∈ g.nodeValues,
        g.localIndex n.type n.id < (g.nodesOfType n.type).length ∧
        (g.nodesOfType n.type)[g.localIndex n.type n.id]? = some n) := by
  refine ⟨?_, ?_, ?_, ?_⟩
  · intro tr
    constructor <;>
      simp [HetGraph.relSrcIds, HetGraph.relDstIds, HetGraph.relFeats]
  · intro tr i hi
    rw [HetGraph.relSrcIds] at hi
    obtain ⟨e, he, rfl⟩ := List.mem_map.mp hi
    rw [HetGraph.relEdges] at he
    obtain ⟨-, htr⟩ := List.mem_filter.mp he
    have htr' : g.canonicalTriple e = some tr := of_decide_eq_true htr
    rw [HetGraph.canonicalTriple] at htr'
    cases hs : g.nodes.lookup e.src_node_id with
    | none => rw [hs] at htr'; cases htr'
    | some s =>
        cases hd : g.nodes.lookup e.dst_node_id with
        | none => rw [hs, hd] at htr'; cases htr'
        | some d =>
            rw [hs, hd] at htr'
            simp at htr'
            cases htr'
            have hsm : (e.src_node_id, s) ∈ g.nodes := lookup_mem hs
            have hsid : s.id = e.src_node_id := hwf.2.1 _ hsm
            have hsv : s ∈ g.nodeValues := List.mem_map_of_mem (fun p => p.2) hsm
            have hsg : s ∈ g.nodesOfType s.type := by
              rw [HetGraph.nodesOfType]
              exact List.mem_filter.mpr ⟨hsv, by simp⟩
            exact List.findIdx_lt_length_of_exists ⟨s, hsg, by simp [hsid]⟩
  · intro tr i hi
    rw [HetGraph.relDstIds] at hi
    obtain ⟨e, he, rfl⟩ := List.mem_map.mp hi
    rw [HetGraph.relEdges] at he
    obtain ⟨-, htr⟩ := List.mem_filter.mp he
    have htr' : g.canonicalTriple e = some tr := of_decide_eq_true htr
    rw [HetGraph.canonicalTriple] at htr'
    cases hs : g.nodes.lookup e.src_node_id with
    | none => rw [hs] at htr'; cases htr'
    | some s =>
        cases hd : g.nodes.lookup e.dst_node_id with
        | none => rw [hs, hd] at htr'; cases htr'
        | some d =>
            rw [hs, hd] at htr'
            simp at htr'
            cases htr'
            have hdm : (e.dst_node_id, d) ∈ g.nodes := lookup_mem hd
            have hdid : d.id = e.dst_node_id := hwf.2.1 _ hdm
            have hdv : d ∈ g.nodeValues := List.mem_map_of_mem (fun p => p.2) hdm
            have hdg : d ∈ g.nodesOfType d.type := by
              rw [HetGraph.nodesOfType]
              exact List.mem_filter.mpr ⟨hdv, by simp⟩
            exact List.findIdx_lt_length_of_exists ⟨d, hdg, by simp [hdid]⟩
  · intro n hn
    have hg : n ∈ g.nodesOfType n.type := by
      rw [HetGraph.nodesOfType]
      exact List.mem_filter.mpr ⟨hn, by simp⟩
    have hlt : g.localIndex n.type n.id < (g.nodesOfType n.type).length :=
      List.findIdx_lt_length_of_exists ⟨n, hg, by simp⟩
    refine ⟨hlt, ?_⟩
    have hx := @List.findIdx_getElem GNode (fun m => decide (m.id = n.id))
      (g.nodesOfType n.type) hlt
    have hxid : ((g.nodesOfType n.type).get
        ⟨g.localIndex n.type n.id, hlt⟩).id = n.id := of_decide_eq_true hx
    have hxv : (g.nodesOfType n.type).get
        ⟨g.localIndex n.type n.id, hlt⟩ ∈ g.nodeValues :=
      List.mem_of_mem_filter (List.get_mem _ _ _)
    have hxn : (g.nodesOfType n.type).get
        ⟨g.localIndex n.type n.id, hlt⟩ = n :=
      List.inj_on_of_nodup_map (nodeValues_ids_nodup g hwf) hxv hn hxid
    rw [List.getElem?_eq_getElem hlt]
    exact congrArg some hxn

/-- Witness for C9 on a concrete two-node, one-edge graph. -/
theorem claim_C9_witness :
    ((⟨[(0, ⟨0, "Plane", []⟩), (1, ⟨1, "Plane", []⟩)],
        [⟨0, 1, "Line", []⟩]⟩ : HetGraph).relSrcIds
          ("Plane", "Line", "Plane")).length =
      ((⟨[(0, ⟨0, "Plane", []⟩), (1, ⟨1, "Plane", []⟩)],
        [⟨0, 1, "Line", []⟩]⟩ : HetGraph).relFeats
          ("Plane", "Line", "Plane")).length ∧
    (∀ i ∈ (⟨[(0, ⟨0, "Plane", []⟩), (1, ⟨1, "Plane", []⟩)],
        [⟨0, 1, "Line", []⟩]⟩ : HetGraph).relSrcIds ("Plane", "Line", "Plane"),
      i < ((⟨[(0, ⟨0, "Plane", []⟩), (1, ⟨1, "Plane", []⟩)],
        [⟨0, 1, "Line", []⟩]⟩ : HetGraph).nodesOfType "Plane").length) ∧
    ((⟨[(0, ⟨0, "Plane", []⟩), (1, ⟨1, "Plane", []⟩)],
        [⟨0, 1, "Line", []⟩]⟩ : HetGraph).nodesOfType "Plane")[
      (⟨[(0, ⟨0, "Plane", []⟩), (1, ⟨1, "Plane", []⟩)],
        [⟨0, 1, "Line", []⟩]⟩ : HetGraph).localIndex "Plane" 1]? =
      some ⟨1, "Plane", []⟩ := by
  refine ⟨?_, ?_, ?_⟩
  · exact ((claim_C9 ⟨[(0, ⟨0, "Plane", []⟩), (1, ⟨1, "Plane", []⟩)],
      [⟨0, 1, "Line", []⟩]⟩ ⟨by decide, by decide, by decide⟩).1
      ("Plane", "Line", "Plane")).1
  · exact (claim_C9 ⟨[(0, ⟨0, "Plane", []⟩), (1, ⟨1, "Plane", []⟩)],
      [⟨0, 1, "Line", []⟩]⟩ ⟨by decide, by decide, by decide⟩).2.1
      ("Plane", "Line", "Plane")
  · exact ((claim_C9 ⟨[(0, ⟨0, "Plane", []⟩), (1, ⟨1, "Plane", []⟩)],
      [⟨0, 1, "Line", []⟩]⟩ ⟨by decide, by decide, by decide⟩).2.2.2
      ⟨1, "Plane", []⟩ (by decide)).2

theorem getD_map_range (n i : Nat) (f : Nat → ℚ) :
    ((List.range n).map f).getD i 0 = if i < n then f i else 0 := by
  rw [List.getD_eq_getElem?_getD, List.getElem?_map]
  by_cases h : i < n
  · rw [List.getElem?_range h, if_pos h]
    rfl
  · rw [if_neg h, List.getElem?_eq_none (by simpa using Nat.le_of_not_lt h)]
    rfl

/-- For a node type with no kind-specific features, alignment is the pure
base copy into the global width. -/
theorem align_node_row_no_specific (ntype : String) (row : List ℚ)
    (h : FeatureConfig.NODE_SPECIFIC_FEATURES.lookup ntype = none) :
    align_node_row ntype row =
      (List.range (FeatureConfig.main_dim +
          collect_all_specific_features.length)).map
        (fun i => if i < min FeatureConfig.main_dim row.length
          then row.getD i 0 else 0) := by
  simp [align_node_row, h]

/-- Node alignment is idempotent for node types with no kind-specific
features. -/
theorem align_node_row_idem_no_specific (ntype : String) (row : List ℚ)
    (h : FeatureConfig.NODE_SPECIFIC_FEATURES.lookup ntype = none) :
    align_node_row ntype (align_node_row ntype row) =
      align_node_row ntype row := by
  rw [align_node_row_no_specific ntype row h,
    align_node_row_no_specific ntype _ h]
  refine List.map_congr_left ?_
  intro i hi
  rw [List.mem_range] at hi
  simp only [List.length_map, List.length_range, getD_map_range]
  split_ifs <;> first | rfl | omega

/-- Every aligned edge row has the target width 4. -/
theorem align_edge_row_length (etype : String) (cd : Nat) (row : List ℚ) :
    (align_edge_row etype cd row).length = 4 := by
  rw [align_edge_row]
  split_ifs <;> simp

/-- The output of edge alignment is empty or has head width 4 or was left
untouched at width ≥ 4. -/
theorem align_edge_rows_output (etype : String) (rows : List (List ℚ)) :
    align_edge_rows etype rows = [] ∨
    4 ≤ ((align_edge_rows etype rows).headD []).length := by
  rw [align_edge_rows]
  by_cases h : (rows.headD []).length < 4
  · rw [if_pos h]
    cases rows with
    | nil => exact Or.inl rfl
    | cons r rest =>
        right
        simp only [List.map_cons, List.headD_cons]
        rw [align_edge_row_length]
  · rw [if_neg h]
    right
    omega

/-- Edge alignment is idempotent as a function on tensors. -/
theorem align_edge_rows_idem (etype : String) (rows : List (List ℚ)) :
    align_edge_rows etype (align_edge_rows etype rows) =
      align_edge_rows etype rows := by
  rcases align_edge_rows_output etype rows with h | h
  · rw [h]
    rfl
  · conv_lhs => rw [align_edge_rows]
    rw [if_neg (by omega)]

/-- C7 (corrected): homogenization is idempotent on the edge side — a
tensor already at width 4 is untouched, and re-aligning an aligned edge
tensor changes nothing — and on the node side only for node types without
kind-specific features; for those the whole two-pass homogenization is
idempotent at the graph level.  (For a node type with specific features a
second pass re-reads the sequential positions `main_dim, main_dim+1, …`,
which after the first pass hold global slots of *other* types, so it is not
a no-op — see the counterexample.) -/
theorem claim_C7 :
    (∀ (etype : String) (rows : List (List ℚ)),
        4 ≤ (rows.headD []).length → align_edge_rows etype rows = rows) ∧
    (∀ (etype : String) (rows : List (List ℚ)),
        align_edge_rows etype (align_edge_rows etype rows) =
          align_edge_rows etype rows) ∧
    (∀ (ntype : String) (row : List ℚ),
        FeatureConfig.NODE_SPECIFIC_FEATURES.lookup ntype = none →
        align_node_row ntype (align_node_row ntype row) =
          align_node_row ntype row) ∧
    (∀ g : TensorGraph,
        (∀ p ∈ g.nodeTensors,
            FeatureConfig.NODE_SPECIFIC_FEATURES.lookup p.1 = none) →
        TensorGraph.homogenize_align (TensorGraph.homogenize_align g) =
          TensorGraph.homogenize_align g) := by
  refine ⟨?_, align_edge_rows_idem, align_node_row_idem_no_specific, ?_⟩
  · intro etype rows h
    rw [align_edge_rows, if_neg (by omega)]
  · intro g h
    obtain ⟨nt, et⟩ := g
    simp only [TensorGraph.homogenize_align, TensorGraph.align_node_features,
      TensorGraph.align_edge_features, List.map_map]
    refine congrArg₂ TensorGraph.mk ?_ ?_
    · refine List.map_congr_left ?_
      intro p hp
      simp only [Function.comp_apply, List.map_map]
      refine congrArg (Prod.mk p.1) ?_
      refine List.map_congr_left ?_
      intro row _
      simp only [Function.comp_apply]
      exact align_node_row_idem_no_specific p.1 row (h p hp)
    · refine List.map_congr_left ?_
      intro p _
      simp only [Function.comp_apply]
      exact congrArg (Prod.mk p.1) (align_edge_rows_idem p.1.2.1 p.2)

/-- Counterexample for C7 as stated: a graph whose single `cylinder` node
tensor is already in homogenized form (width 9 + 14 = 23, the cylinder's
radius 10 / angle 30 / height 20 sitting in their global slots) is not
fixed by a second homogenization pass — the pass re-reads positions 9, 10,
11, which now hold the first three global slots (other types' features,
all zero), and zeroes the cylinder slots. -/
theorem claim_C7_counterexample :
    TensorGraph.HomogenizedForm
      ⟨[("cylinder",
          [[1, 2, 3, 4, 5, 6, 7, 8, 9, 0, 0, 0, 10, 0, 0, 0, 0, 0, 0, 0, 0,
            30, 20]])], []⟩ ∧
    TensorGraph.homogenize_align
        ⟨[("cylinder",
            [[1, 2, 3, 4, 5, 6, 7, 8, 9, 0, 0, 0, 10, 0, 0, 0, 0, 0, 0, 0, 0,
              30, 20]])], []⟩ ≠
      ⟨[("cylinder",
          [[1, 2, 3, 4, 5, 6, 7, 8, 9, 0, 0, 0, 10, 0, 0, 0, 0, 0, 0, 0, 0,
            30, 20]])], []⟩ := by
  constructor
  · decide
  · decide

/-- Witness for C7: a width-4 edge tensor is untouched, and the graph-level
two-pass homogenization is idempotent on a graph whose only node type
(`plane`) has no kind-specific features. -/
theorem claim_C7_witness :
    align_edge_rows "straight" [[1, 2, 3, 4]] = [[1, 2, 3, 4]] ∧
    TensorGraph.homogenize_align
        (TensorGraph.homogenize_align
          ⟨[("plane", [[1, 2, 3, 4, 5, 6, 7, 8, 9]])],
           [(("plane", "straight", "plane"), [[1, 2]])]⟩) =
      TensorGraph.homogenize_align
        ⟨[("plane", [[1, 2, 3, 4, 5, 6, 7, 8, 9]])],
         [(("plane", "straight", "plane"), [[1, 2]])]⟩ := by
  constructor
  · exact claim_C7.1 "straight" [[1, 2, 3, 4]] (by norm_num)
  · exact claim_C7.2.2.2
      ⟨[("plane", [[1, 2, 3, 4, 5, 6, 7, 8, 9]])],
       [(("plane", "straight", "plane"), [[1, 2]])]⟩ (by decide)
